import Mathlib

/-!
Verification development for `ford/settings.py`: the settings resolution and
type-coercion engine of the FORD documentation generator.

The embedding is shallow: Python runtime values are modelled by the `Value`
type below, the `Settings` dataclass by an association list of `Entry`
(field name, declared type annotation, current value) in declaration order,
and each Python function of the source by a Lean function of the same name.
Exceptions are modelled by `Except PyError`.

Modelling notes, fixed for the whole file:
  * Python values are modelled as scalars (str, bool, int, pathlib path,
    None) and lists of scalars.  Every value the module constructs or
    passes around has this shape: the markdown metadata loader produces
    lists of strings, and both scalar-to-list promotions (`[value]`) are
    guarded by `not isinstance(value, list)` / reached only for non-list
    values, so lists of scalars are closed under all operations here.
    Dicts, floats and nested lists never occur in this module's data flow
    and are outside the model.
  * `pathlib.Path` values are modelled by `PyPath`: an absolute flag plus
    the list of path components, with empty and `.` components dropped at
    parse time exactly as `pathlib` does.  `type(Path(...))` is
    `PosixPath`, which is a different class from `Path` itself; the class
    universe `PyClass` keeps the two apart because
    `is_same_type(Path, PosixPath)` is `False` in the source.
  * CPython's `set` iteration order is unspecified (hash based), so
    `list(set(a) | set(b))` is modelled as duplicate-free concatenation in
    first-occurrence order; theorems about `extensions` rely only on
    order-independent facts (membership, length).
  * `datetime.date.today().year` and `multiprocessing.cpu_count()` are
    environment values; the schema takes them as parameters `yearD` and
    `cpus`.
-/

/-- The Python exception kinds raised or caught by `ford/settings.py`. -/
inductive PyError where
  | valueError : String → PyError
  | typeError : String → PyError
  | keyError : String → PyError
  | indexError : String → PyError
  | attributeError : String → PyError
deriving DecidableEq, Repr

/-- A `pathlib` path: absolute flag plus components.  `pathlib` drops empty
and `.` components when parsing, and keeps `..` components. -/
structure PyPath where
  isAbs : Bool
  parts : List String
deriving DecidableEq, Repr

/-- Split a character list at every occurrence of `sep` (the pieces, in
order, separators dropped). -/
def splitChar (sep : Char) : List Char → List (List Char)
  | [] => [[]]
  | c :: rest =>
    match splitChar sep rest with
    | [] => [[]]
    | cur :: parts => if c == sep then [] :: cur :: parts else (c :: cur) :: parts

/-- `pathlib.PurePath` parsing of a string: leading `/` makes the path
absolute; empty and `.` components are dropped. -/
def parsePath (s : String) : PyPath :=
  ⟨(match s.toList with | '/' :: _ => true | _ => false),
   ((splitChar '/' s.toList).map List.asString).filter (fun c => c ≠ "" && c ≠ ".")⟩

/-- `pathlib`'s `/` operator (`PurePath.__truediv__`): an absolute right
operand replaces the left one. -/
def PyPath.join (a b : PyPath) : PyPath :=
  if b.isAbs then b else ⟨a.isAbs, a.parts ++ b.parts⟩

/-- `str(path)` for a `PyPath` (used only inside error messages). -/
def PyPath.render (p : PyPath) : String :=
  (if p.isAbs then "/" else "") ++ String.intercalate "/" p.parts

/-- A scalar Python value of this module: `str`, `bool`, `int`, a
`pathlib` path object, or `None`. -/
inductive Scalar where
  | sStr : String → Scalar
  | sBool : Bool → Scalar
  | sInt : Int → Scalar
  | sPath : PyPath → Scalar
  | sNone : Scalar
deriving DecidableEq, Repr

/-- A Python value of this module: a scalar or a list of scalars. -/
inductive Value where
  | atom : Scalar → Value
  | vList : List Scalar → Value
deriving DecidableEq, Repr

@[match_pattern] def Value.vStr (s : String) : Value := .atom (.sStr s)

@[match_pattern] def Value.vBool (b : Bool) : Value := .atom (.sBool b)

@[match_pattern] def Value.vInt (n : Int) : Value := .atom (.sInt n)

@[match_pattern] def Value.vPath (p : PyPath) : Value := .atom (.sPath p)

@[match_pattern] def Value.vNone : Value := .atom .sNone

/-- The Python classes this module compares types against: the runtime
classes `str`, `bool`, `int`, `list`, `PosixPath`, `NoneType`, plus the
class `Path` itself and the generic alias `List[Path]`, which are passed
to `is_same_type` as literals but are never the type of a runtime value. -/
inductive PyClass where
  | pstr | pbool | pint | plist | pPathCls | pPosix | pnone | pListPathAlias
deriving DecidableEq, Repr

/-- `type(value)` for a runtime value.  A constructed `Path` has runtime
class `PosixPath`, never `Path` itself. -/
def Scalar.typeOf : Scalar → PyClass
  | .sStr _ => .pstr
  | .sBool _ => .pbool
  | .sInt _ => .pint
  | .sPath _ => .pPosix
  | .sNone => .pnone

/-- `type(value)` for a runtime value. -/
def Value.typeOf : Value → PyClass
  | .atom s => s.typeOf
  | .vList _ => .plist

/-- The declared type annotations appearing in the `Settings` dataclass:
`str`, `Optional[str]`, `bool`, `int`, `Path`, `Optional[Path]`,
`List[str]`, `List[Path]`, and the bare `list`. -/
inductive FieldType where
  | tStr | tOptStr | tBool | tInt | tPath | tOptPath | tListStr | tListPath | tList
deriving DecidableEq, Repr

/-- `is_same_type(type_in, tp)` from the source: `type_in is tp` or
`tp` appears among the arguments of the `Optional` union `type_in`.
Note that `Path` matches only the class `Path` itself, never the runtime
class `PosixPath`, and the generic aliases `List[str]`/`List[Path]` match
nothing but their own alias. -/
def is_same_type : FieldType → PyClass → Bool
  | .tStr, .pstr => true
  | .tOptStr, c => c == .pstr || c == .pnone
  | .tBool, .pbool => true
  | .tInt, .pint => true
  | .tPath, .pPathCls => true
  | .tOptPath, c => c == .pPathCls || c == .pnone
  | .tListStr, _ => false
  | .tListPath, .pListPathAlias => true
  | .tList, .plist => true
  | _, _ => false

/-- `get_origin(default_type) is list`: true exactly for the parametrized
aliases `List[str]` and `List[Path]`; `get_origin(list)` is `None` and
`get_origin(Optional[...])` is `Union`. -/
def originIsList : FieldType → Bool
  | .tListStr => true
  | .tListPath => true
  | _ => false

/-- Python `repr()` of a scalar (used in error messages). -/
def Scalar.pyRepr : Scalar → String
  | .sStr s => "'" ++ s ++ "'"
  | .sBool b => if b then "True" else "False"
  | .sInt n => toString n
  | .sPath p => "PosixPath('" ++ p.render ++ "')"
  | .sNone => "None"

/-- Python `str()` of a scalar: like `repr` but a string formats as
itself, without quotes. -/
def Scalar.pyStr : Scalar → String
  | .sStr s => s
  | v => v.pyRepr

/-- Python `repr()` of a value; a list shows the `repr` of each element. -/
def Value.pyRepr : Value → String
  | .atom s => s.pyRepr
  | .vList l => "[" ++ String.intercalate ", " (l.map Scalar.pyRepr) ++ "]"

/-- Python `str()` of a value: a string formats as itself, everything
else as its `repr`. -/
def Value.pyStr : Value → String
  | .atom s => s.pyStr
  | v => v.pyRepr

/-- Python `len()`: length of a list or of a string; `TypeError`
otherwise. -/
def pyLen : Value → Except PyError Nat
  | .vList l => .ok l.length
  | .vStr s => .ok s.length
  | _ => .error (.typeError "object has no len()")

/-- Python `value[0]`: first element of a list, first character of a
string; `IndexError` when empty, `TypeError` when not subscriptable. -/
def pyIndex0 : Value → Except PyError Scalar
  | .vList [] => .error (.indexError "list index out of range")
  | .vList (x :: _) => .ok x
  | .vStr s =>
    if s.isEmpty then .error (.indexError "string index out of range")
    else .ok (.sStr (s.take 1))
  | _ => .error (.typeError "object is not subscriptable")

/-- Python iteration: elements of a list, characters of a string;
`TypeError` otherwise. -/
def pyIter : Value → Except PyError (List Scalar)
  | .vList l => .ok l
  | .vStr s => .ok (s.toList.map (fun c => .sStr (String.singleton c)))
  | _ => .error (.typeError "object is not iterable")

/-- Python `str.lower()` (ASCII case folding, which covers every string
this module compares after lowering). -/
def pyToLower (s : String) : String :=
  (s.data.map Char.toLower).asString

/-- Python `str.strip()` with no argument: surrounding whitespace removed. -/
def pyStrip (s : String) : String :=
  ((s.data.dropWhile Char.isWhitespace).reverse.dropWhile Char.isWhitespace).reverse.asString

/-- `.lower()` on a scalar: lower-cases a string, `AttributeError` on
anything else. -/
def pyLower : Scalar → Except PyError Scalar
  | .sStr s => .ok (.sStr (pyToLower s))
  | _ => .error (.attributeError "object has no attribute lower")

/-- The digit run of a Python base-10 integer literal: nonempty digits,
with single underscores allowed between digits. -/
def pyDigitsValid : List Char → Bool
  | [] => false
  | c :: rest => c.isDigit && pyDigitsRest rest
where
  pyDigitsRest : List Char → Bool
    | [] => true
    | '_' :: d :: rest => d.isDigit && pyDigitsRest rest
    | '_' :: [] => false
    | d :: rest => d.isDigit && pyDigitsRest rest

/-- The numeric value of a digit run, underscores skipped. -/
def pyDigitsVal (cs : List Char) : Nat :=
  (cs.filter (fun c => c ≠ '_')).foldl (fun n c => 10 * n + (c.toNat - 48)) 0

/-- Python `int(string)` in base 10: surrounding whitespace stripped, an
optional sign, then digits with optional single underscores between them;
anything else raises `ValueError: invalid literal for int() with base 10`
naming the offending string (`repr`-quoted), but not the setting key. -/
def pyIntParse (s : String) : Except PyError Int :=
  let cs := (pyStrip s).toList
  let signDigits : Int × List Char :=
    match cs with
    | '+' :: rest => (1, rest)
    | '-' :: rest => (-1, rest)
    | rest => (1, rest)
  if pyDigitsValid signDigits.2 then
    .ok (signDigits.1 * (pyDigitsVal signDigits.2 : Int))
  else
    .error (.valueError ("invalid literal for int() with base 10: " ++ Scalar.pyRepr (.sStr s)))

/-- Python `int(x)` on a runtime value: ints pass through, `True`/`False`
become 1/0, strings are parsed base 10, anything else is a `TypeError`. -/
def pyInt : Scalar → Except PyError Int
  | .sInt n => .ok n
  | .sBool b => .ok (if b then 1 else 0)
  | .sStr s => pyIntParse s
  | _ => .error (.typeError "int() argument must be a string or a number")

/-- Modelled from the spec: `ford.utils.str_to_bool` (the module itself is
not under `src/`).  Parses a truth word case-insensitively — recognized
spellings for true: "true", "yes", "y", "1"; for false: "false", "no",
"n", "0" — and raises `ValueError` on anything else.  A non-string
argument has no `.lower()`, so it raises `AttributeError` instead, which
`convert_to_bool`'s `except ValueError` does not catch. -/
def str_to_bool : Scalar → Except PyError Bool
  | .sStr text =>
    if pyToLower text ∈ ["true", "yes", "y", "1"] then .ok true
    else if pyToLower text ∈ ["false", "no", "n", "0"] then .ok false
    else .error (.valueError ("Could not parse " ++ text))
  | _ => .error (.attributeError "object has no attribute lower")

/-- `convert_to_bool` from the source: a `bool` passes through; a value of
length greater than one is an ambiguity error showing the raw value; the
first element is parsed by `str_to_bool`, whose `ValueError` is re-raised
as an error naming the option and the bad value. -/
def convert_to_bool (name : String) (option : Value) : Except PyError Bool :=
  match option with
  | .vBool b => .ok b
  | _ =>
    match pyLen option with
    | .error e => .error e
    | .ok n =>
      if n > 1 then
        .error (.valueError ("Could not convert option '" ++ name ++
          "' to bool: expected a single value but got a list (" ++ option.pyStr ++ ")"))
      else
        match pyIndex0 option with
        | .error e => .error e
        | .ok v =>
          match str_to_bool v with
          | .ok b => .ok b
          | .error (.valueError _) =>
            .error (.valueError ("Could not convert option '" ++ name ++
              "' to bool: expected 'true'/'false', got: " ++ v.pyStr))
          | .error e => .error e

/-- One field of the `Settings` dataclass: name, declared type annotation,
whether it is an `__init__` parameter (`relative` is declared with
`field(init=False)`), and its declared default value. -/
structure Field0 where
  name : String
  ftype : FieldType
  finit : Bool
  default : Value
deriving DecidableEq, Repr

/-- An attribute of a constructed `Settings` object: field name, declared
type annotation, current value. -/
structure Entry where
  name : String
  ftype : FieldType
  value : Value
deriving DecidableEq, Repr

/-- `FAVICON_PATH = Path("favicon.png")`. -/
def FAVICON_PATH : PyPath := parsePath "favicon.png"

set_option maxHeartbeats 1000000

/-- The `Settings` dataclass schema, in declaration order.  `yearD` stands
for `str(date.today().year)` and `cpus` for `default_cpus()`, both
evaluated from the environment when the class body runs. -/
def schema (yearD : String) (cpus : Int) : List Field0 :=
  [⟨"alias", .tListStr, true, .vList []⟩,
   ⟨"author", .tOptStr, true, .vNone⟩,
   ⟨"author_description", .tOptStr, true, .vNone⟩,
   ⟨"author_pic", .tOptStr, true, .vNone⟩,
   ⟨"bitbucket", .tOptStr, true, .vNone⟩,
   ⟨"coloured_edges", .tBool, true, .vBool false⟩,
   ⟨"copy_subdir", .tListPath, true, .vList []⟩,
   ⟨"creation_date", .tStr, true, .vStr "%Y-%m-%dT%H:%M:%S.%f%z"⟩,
   ⟨"css", .tOptPath, true, .vNone⟩,
   ⟨"dbg", .tBool, true, .vBool true⟩,
   ⟨"display", .tListStr, true, .vList [.sStr "public", .sStr "protected"]⟩,
   ⟨"doc_license", .tStr, true, .vStr ""⟩,
   ⟨"docmark", .tStr, true, .vStr "!"⟩,
   ⟨"docmark_alt", .tStr, true, .vStr "*"⟩,
   ⟨"email", .tOptStr, true, .vNone⟩,
   ⟨"encoding", .tStr, true, .vStr "utf-8"⟩,
   ⟨"exclude", .tListStr, true, .vList []⟩,
   ⟨"exclude_dir", .tListPath, true, .vList []⟩,
   ⟨"extensions", .tListStr, true,
     .vList [.sStr "f90", .sStr "f95", .sStr "f03", .sStr "f08", .sStr "f15"]⟩,
   ⟨"external", .tList, true, .vList []⟩,
   ⟨"externalize", .tBool, true, .vBool false⟩,
   ⟨"extra_filetypes", .tList, true, .vList []⟩,
   ⟨"extra_mods", .tList, true, .vList []⟩,
   ⟨"extra_vartypes", .tList, true, .vList []⟩,
   ⟨"facebook", .tOptStr, true, .vNone⟩,
   ⟨"favicon", .tPath, true, .vPath FAVICON_PATH⟩,
   ⟨"fixed_extensions", .tList, true,
     .vList [.sStr "f", .sStr "for", .sStr "F", .sStr "FOR"]⟩,
   ⟨"fixed_length_limit", .tBool, true, .vBool true⟩,
   ⟨"force", .tBool, true, .vBool false⟩,
   ⟨"fpp_extensions", .tList, true,
     .vList [.sStr "F90", .sStr "F95", .sStr "F03", .sStr "F08", .sStr "F15",
             .sStr "F", .sStr "FOR"]⟩,
   ⟨"github", .tOptStr, true, .vNone⟩,
   ⟨"gitlab", .tOptStr, true, .vNone⟩,
   ⟨"gitter_sidecar", .tOptStr, true, .vNone⟩,
   ⟨"google_plus", .tOptStr, true, .vNone⟩,
   ⟨"graph", .tBool, true, .vBool false⟩,
   ⟨"graph_dir", .tOptPath, true, .vNone⟩,
   ⟨"graph_maxdepth", .tInt, true, .vInt 10000⟩,
   ⟨"graph_maxnodes", .tInt, true, .vInt 1000000000⟩,
   ⟨"hide_undoc", .tBool, true, .vBool false⟩,
   ⟨"incl_src", .tBool, true, .vBool true⟩,
   ⟨"include", .tListPath, true, .vList []⟩,
   ⟨"license", .tStr, true, .vStr ""⟩,
   ⟨"linkedin", .tOptStr, true, .vNone⟩,
   ⟨"lower", .tBool, true, .vBool false⟩,
   ⟨"macro", .tList, true, .vList []⟩,
   ⟨"mathjax_config", .tOptPath, true, .vNone⟩,
   ⟨"max_frontpage_items", .tInt, true, .vInt 10⟩,
   ⟨"md_base_dir", .tOptPath, true, .vNone⟩,
   ⟨"md_extensions", .tList, true, .vList []⟩,
   ⟨"media_dir", .tOptPath, true, .vNone⟩,
   ⟨"output_dir", .tPath, true, .vPath (parsePath "./doc")⟩,
   ⟨"page_dir", .tOptPath, true, .vNone⟩,
   ⟨"parallel", .tInt, true, .vInt cpus⟩,
   ⟨"predocmark", .tStr, true, .vStr ">"⟩,
   ⟨"predocmark_alt", .tStr, true, .vStr "|"⟩,
   ⟨"preprocess", .tBool, true, .vBool true⟩,
   ⟨"preprocessor", .tStr, true, .vStr "cpp -traditional-cpp -E -D__GFORTRAN__"⟩,
   ⟨"print_creation_date", .tBool, true, .vBool false⟩,
   ⟨"privacy_policy_url", .tOptStr, true, .vNone⟩,
   ⟨"proc_internals", .tBool, true, .vBool false⟩,
   ⟨"project", .tStr, true, .vStr "Fortran Program"⟩,
   ⟨"project_bitbucket", .tOptStr, true, .vNone⟩,
   ⟨"project_download", .tOptStr, true, .vNone⟩,
   ⟨"project_github", .tOptStr, true, .vNone⟩,
   ⟨"project_gitlab", .tOptStr, true, .vNone⟩,
   ⟨"project_sourceforge", .tOptStr, true, .vNone⟩,
   ⟨"project_url", .tStr, true, .vStr ""⟩,
   ⟨"project_website", .tOptStr, true, .vNone⟩,
   ⟨"quiet", .tBool, true, .vBool false⟩,
   ⟨"relative", .tBool, false, .vBool false⟩,
   ⟨"revision", .tOptStr, true, .vNone⟩,
   ⟨"search", .tBool, true, .vBool true⟩,
   ⟨"show_proc_parent", .tBool, true, .vBool false⟩,
   ⟨"sort", .tStr, true, .vStr "src"⟩,
   ⟨"source", .tBool, true, .vBool false⟩,
   ⟨"src_dir", .tListPath, true, .vList [.sPath (parsePath "./src")]⟩,
   ⟨"summary", .tOptStr, true, .vNone⟩,
   ⟨"terms_of_service_url", .tOptStr, true, .vNone⟩,
   ⟨"twitter", .tOptStr, true, .vNone⟩,
   ⟨"version", .tOptStr, true, .vNone⟩,
   ⟨"warn", .tBool, true, .vBool false⟩,
   ⟨"website", .tOptStr, true, .vNone⟩,
   ⟨"year", .tStr, true, .vStr yearD⟩]

/-- Lookup in a raw keyword mapping (a Python dict has unique keys; on an
association list the first binding wins). -/
def rawLookup : List (String × Value) → String → Option Value
  | [], _ => none
  | kv :: t, n => if kv.1 == n then some kv.2 else rawLookup t n

/-- The value of attribute `n` of a settings object (`getattr(self, n)`). -/
def lookupV : List Entry → String → Option Value
  | [], _ => none
  | e :: t, n => if e.name == n then some e.value else lookupV t n

/-- `getattr(self, n)` where the attribute is known to exist (every schema
field does); `None` stands in for the impossible missing case. -/
def getV (es : List Entry) (n : String) : Value :=
  (lookupV es n).getD .vNone

/-- `setattr(self, n, v)`: replace the value of the field named `n`. -/
def updateV : List Entry → String → Value → List Entry
  | [], _, _ => []
  | e :: t, n, v => (if e.name == n then { e with value := v } else e) :: updateV t n v

/-- The body of the scalar-promotion loop of `__post_init__` for one
attribute: accept a value whose runtime type already matches the
annotation; otherwise, when the annotation's `get_origin` is `list` and
the value is not a list, wrap it in a one-element list. -/
def coerceEntry (e : Entry) : Entry :=
  if is_same_type e.ftype e.value.typeOf then e
  else if originIsList e.ftype then
    match e.value with
    | .atom s => { e with value := .vList [s] }
    | .vList _ => e
  else e

/-- `self.display = [item.lower() for item in self.display]`. -/
def updateDisplay (es : List Entry) : Except PyError (List Entry) := do
  let items ← pyIter (getV es "display")
  let lowered ← items.mapM pyLower
  .ok (updateV es "display" (.vList lowered))

/-- `list(set(a) | set(b))`, modelled as duplicate-free concatenation in
first-occurrence order (CPython's set order is unspecified). -/
def pySetUnion (a b : List Scalar) : List Scalar :=
  (a ++ b).dedup

/-- `self.extensions = list(set(self.extensions) | set(self.fpp_extensions))`. -/
def updateExtensions (es : List Entry) : Except PyError (List Entry) := do
  let exts ← pyIter (getV es "extensions")
  let fpp ← pyIter (getV es "fpp_extensions")
  .ok (updateV es "extensions" (.vList (pySetUnion exts fpp)))

/-- The pairs produced by `combinations(docmarks, 2)` for
`docmarks = ["docmark", "predocmark", "docmark_alt", "predocmark_alt"]`,
in `itertools` order. -/
def docmarkPairs : List (String × String) :=
  [("docmark", "predocmark"), ("docmark", "docmark_alt"),
   ("docmark", "predocmark_alt"), ("predocmark", "docmark_alt"),
   ("predocmark", "predocmark_alt"), ("docmark_alt", "predocmark_alt")]

/-- The docmark-collision loop of `__post_init__`: for each pair, raise
`ValueError` when `first_mark == second_mark != ""` (Python chained
comparison: the marks are equal and the second is non-empty). -/
def checkDocmarkPairs (es : List Entry) : List (String × String) → Except PyError Unit
  | [] => .ok ()
  | (f, s) :: rest =>
    let fm := getV es f
    let sm := getV es s
    if fm == sm && sm != Value.vStr "" then
      .error (.valueError (f ++ " ('" ++ fm.pyStr ++ "') and " ++ s ++
        " ('" ++ sm.pyStr ++ "') are the same"))
    else checkDocmarkPairs es rest

/-- `Settings.__post_init__`: derive `relative` from `project_url`, run
the scalar-promotion loop over every attribute, lower-case `display`,
union `extensions` with `fpp_extensions`, then check the docmarks. -/
def postInit (es0 : List Entry) : Except PyError (List Entry) := do
  let rel : Bool := getV es0 "project_url" == Value.vStr ""
  let es1 := updateV es0 "relative" (.vBool rel)
  let es2 := es1.map coerceEntry
  let es3 ← updateDisplay es2
  let es4 ← updateExtensions es3
  let _ ← checkDocmarkPairs es4 docmarkPairs
  .ok es4

/-- The value a dataclass `__init__` assigns to one field: the raw keyword
value when the field takes one and it was supplied, else the declared
default (an `init=False` field ignores keywords; the rejection of such a
keyword happens in `mkSettings`). -/
def assignEntry (raw : List (String × Value)) (f : Field0) : Entry :=
  { name := f.name, ftype := f.ftype,
    value := if f.finit then (rawLookup raw f.name).getD f.default else f.default }

/-- `Settings(**raw)`: the generated dataclass `__init__` rejects any
keyword that is not an `__init__` field with `TypeError` (this covers
both unknown names and the `init=False` field `relative`), assigns each
field its raw value or declared default, then runs `__post_init__`. -/
def mkSettings (yearD : String) (cpus : Int) (raw : List (String × Value)) :
    Except PyError (List Entry) :=
  let flds := schema yearD cpus
  match raw.find? (fun kv => !(flds.any (fun f => f.finit && f.name == kv.1))) with
  | some kv =>
    .error (.typeError ("__init__() got an unexpected keyword argument '" ++ kv.1 ++ "'"))
  | none =>
    postInit (flds.map (assignEntry raw))

/-- Modelled from the spec: `ford.utils.normalise_path` (the module itself
is not under `src/`).  Resolves a possibly-relative path against the given
base directory and short-circuits on an already-absolute input, leaving it
unchanged. -/
def normalise_path (directory : PyPath) (p : PyPath) : PyPath :=
  if p.isAbs then p else directory.join p

/-- `Path(value)` on a runtime value: a path passes through, a string is
parsed; anything else raises `TypeError`. -/
def toPath : Value → Except PyError PyPath
  | .vPath p => .ok p
  | .vStr s => .ok (parsePath s)
  | _ => .error (.typeError "argument should be a str or an os.PathLike object")

/-- Lines 193–195 of the source: a missing `directory` argument defaults
to `Path.cwd()`, and the result is made absolute against the current
working directory (`Path.absolute()` leaves an absolute path unchanged). -/
def resolveBase (cwd : PyPath) (dirArg : Option PyPath) : PyPath :=
  let d0 := dirArg.getD cwd
  if d0.isAbs then d0 else cwd.join d0

/-- The body of the `normalise_paths` loop for one attribute: skip a value
whose runtime type matches the annotation (never the case for an actual
path object, whose class is `PosixPath`, not `Path`); normalise each
element of a `List[Path]` field; normalise the value of a `Path` or
`Optional[Path]` field. -/
def normEntry (directory : PyPath) (e : Entry) : Except PyError Entry :=
  if is_same_type e.ftype e.value.typeOf then .ok e
  else if is_same_type e.ftype .pListPathAlias then do
    let items ← pyIter e.value
    let normed ← items.mapM (fun v => do
      .ok (Scalar.sPath (normalise_path directory (← toPath (.atom v)))))
    .ok { e with value := .vList normed }
  else if is_same_type e.ftype .pPathCls then do
    .ok { e with value := .vPath (normalise_path directory (← toPath e.value)) }
  else .ok e

/-- `Settings.normalise_paths`: compute the base directory, substitute the
bundled favicon (`Path(__file__).parent / FAVICON_PATH`, here
`moduleDir.join FAVICON_PATH`) when `favicon` still equals the sentinel
default, normalise every path-typed and path-list-typed attribute, and
default `md_base_dir` to the base directory when it is still `None`. -/
def normalise_paths (moduleDir cwd : PyPath) (dirArg : Option PyPath)
    (es : List Entry) : Except PyError (List Entry) := do
  let directory := resolveBase cwd dirArg
  let es1 :=
    if getV es "favicon" == Value.vPath FAVICON_PATH then
      updateV es "favicon" (.vPath (moduleDir.join FAVICON_PATH))
    else es
  let es2 ← es1.mapM (normEntry directory)
  let es3 :=
    if getV es2 "md_base_dir" == Value.vNone then
      updateV es2 "md_base_dir" (.vPath directory)
    else es2
  .ok es3

/-- `"\n".join(value)`: every element must be a string, else `TypeError`. -/
def joinNewlines : List Scalar → Except PyError String
  | [] => .ok ""
  | [.sStr s] => .ok s
  | .sStr s :: rest => do .ok (s ++ "\n" ++ (← joinNewlines rest))
  | _ => .error (.typeError "sequence item: expected str instance")

/-- The per-key coercion of `load_markdown_settings` (lines 250–261 of the
source): accept a matching runtime type; wrap in a list when the
annotation is the bare `list` class; parse booleans via `convert_to_bool`;
take `int(value[0])` for integers; join list values with newlines for
`str`- and `Path`-annotated keys; pass anything else through unchanged.
Note the `list` branch fires only for bare-`list` annotations, never for
`List[str]`/`List[Path]`, whose wrapping happens later in
`__post_init__`. -/
def coerceValue (key : String) (ft : FieldType) (value : Value) : Except PyError Value :=
  if is_same_type ft value.typeOf then .ok value
  else if is_same_type ft .plist then
    match value with
    | .atom s => .ok (.vList [s])
    | v => .ok v
  else if is_same_type ft .pbool then do
    .ok (.vBool (← convert_to_bool key value))
  else if is_same_type ft .pint then do
    .ok (.vInt (← pyInt (← pyIndex0 value)))
  else if (is_same_type ft .pstr || is_same_type ft .pPathCls) &&
      value.typeOf == .plist then do
    let items ← pyIter value
    .ok (.vStr (← joinNewlines items))
  else .ok value

/-- One iteration of the coercion loop of `load_markdown_settings`: the
key's declared type is looked up in `get_type_hints(Settings)` (`KeyError`
for a name that is no field) and the value coerced by `coerceValue`. -/
def coercePair (yearD : String) (cpus : Int) (kv : String × Value) :
    Except PyError (String × Value) :=
  match (schema yearD cpus).find? (fun f => f.name == kv.1) with
  | none => .error (.keyError kv.1)
  | some f => do
    .ok (kv.1, ← coerceValue kv.1 f.ftype kv.2)

/-- `load_markdown_settings`, from the already-extracted metadata mapping
(`meta_preprocessor` lives in `ford.utils`, outside `src/`, and its file
reading is I/O; its output shape — each key mapped to its raw value — is
this function's argument).  Each pair is coerced by `coercePair` and the
result passed to the `Settings` constructor.  The deprecated
file-inclusion workaround (lines 263–275) reads other files from disk and
is out of the modelled scope. -/
def load_markdown_settings (yearD : String) (cpus : Int)
    (raw : List (String × Value)) : Except PyError (List Entry) := do
  let coerced ← raw.mapM (coercePair yearD cpus)
  mkSettings yearD cpus coerced

/-- `load_toml_settings`, from the already-parsed `[extra.ford]` table of
`fpm.toml` (locating and reading the file is I/O; `none` stands for "no
file or no such table", which the source answers with `None` rather than
an error).  A present table is passed directly to the `Settings`
constructor. -/
def load_toml_settings (yearD : String) (cpus : Int)
    (tbl : Option (List (String × Value))) : Except PyError (Option (List Entry)) :=
  match tbl with
  | none => .ok none
  | some raw => do .ok (some (← mkSettings yearD cpus raw))

/-- Whether `t` occurs as a substring of `s` (for theorems about error
messages naming keys and values). -/
def strContains (s t : String) : Bool :=
  s.toList.tails.any (fun suf => t.toList.isPrefixOf suf)

instance {ε α : Type} [DecidableEq ε] [DecidableEq α] : DecidableEq (Except ε α) := fun a b =>
  match a, b with
  | .ok x, .ok y =>
    if h : x = y then .isTrue (by rw [h]) else .isFalse (fun hc => h (Except.ok.inj hc))
  | .ok _, .error _ => .isFalse (fun hc => Except.noConfusion hc)
  | .error _, .ok _ => .isFalse (fun hc => Except.noConfusion hc)
  | .error x, .error y =>
    if h : x = y then .isTrue (by rw [h]) else .isFalse (fun hc => h (Except.error.inj hc))

/-- A raw keyword mapping supplying the four docmark-style markers. -/
def markerRaw (dm dma pdm pdma : String) : List (String × Value) :=
  [("docmark", .vStr dm), ("docmark_alt", .vStr dma),
   ("predocmark", .vStr pdm), ("predocmark_alt", .vStr pdma)]

/-- The marker a given name of `markerRaw` carries. -/
def markerVal (dm dma pdm pdma : String) (n : String) : String :=
  if n = "docmark" then dm
  else if n = "docmark_alt" then dma
  else if n = "predocmark" then pdm
  else pdma

/-- C2 (confirmed): boolean coercion in the metadata-text loader routes a
boolean-typed key through `convert_to_bool`; a one-element list of strings
is parsed case-insensitively with true spellings "true"/"yes"/"y"/"1" and
false spellings "false"/"no"/"n"/"0"; a list with more than one element is
a hard error; an unrecognized string is a hard error naming the bad
value. -/
theorem bool_coercion_spec (name s : String) (v w : Scalar) (rest : List Scalar)
    (l : List Scalar) :
    (coerceValue name .tBool (.vList l) =
      match convert_to_bool name (.vList l) with
      | .ok b => .ok (.vBool b)
      | .error e => .error e) ∧
    (convert_to_bool name (.vList [.sStr s]) =
      (if pyToLower s ∈ ["true", "yes", "y", "1"] then .ok true
       else if pyToLower s ∈ ["false", "no", "n", "0"] then .ok false
       else .error (.valueError ("Could not convert option '" ++ name ++
         "' to bool: expected 'true'/'false', got: " ++ s)))) ∧
    (∃ msg, convert_to_bool name (.vList (v :: w :: rest)) = .error (.valueError msg)) := by
  refine ⟨?_, ?_, ?_⟩
  · simp only [coerceValue, is_same_type, Value.typeOf]
    cases convert_to_bool name (.vList l) <;> simp [Bind.bind, Except.bind]
  · by_cases h1 : pyToLower s ∈ ["true", "yes", "y", "1"]
    · simp [convert_to_bool, pyLen, pyIndex0, str_to_bool, h1]
    · by_cases h2 : pyToLower s ∈ ["false", "no", "n", "0"]
      · simp [convert_to_bool, pyLen, pyIndex0, str_to_bool, h1, h2]
      · simp [convert_to_bool, pyLen, pyIndex0, str_to_bool, h1, h2, Scalar.pyStr]
  · refine ⟨"Could not convert option '" ++ name ++
      "' to bool: expected a single value but got a list (" ++
      (Value.vList (v :: w :: rest)).pyStr ++ ")", ?_⟩
    simp [convert_to_bool, pyLen]

/-- C1 (counterexample): constructed with no inputs at all, the settings
object does not hold the declared default of the schema key `extensions`
(the `__post_init__` union with `fpp_extensions` replaces it even when the
key is absent from raw input). -/
theorem defaults_extensions_counterexample :
    (schema "2024" 4).find? (fun f => f.name == "extensions") =
      some ⟨"extensions", .tListStr, true,
        .vList [.sStr "f90", .sStr "f95", .sStr "f03", .sStr "f08", .sStr "f15"]⟩ ∧
    (mkSettings "2024" 4 []).toOption.map (fun es => getV es "extensions") ≠ none ∧
    (mkSettings "2024" 4 []).toOption.map (fun es => getV es "extensions") ≠
      some (.vList [.sStr "f90", .sStr "f95", .sStr "f03", .sStr "f08", .sStr "f15"]) := by
  refine ⟨by decide, by decide, by decide⟩

/-- C3 (counterexample): `macro` is a list-typed schema key (bare `list`
annotation), yet direct construction from a scalar raw input leaves the
scalar unchanged instead of promoting it to a one-element list, because
`get_origin(list)` is `None` in the `__post_init__` promotion loop. -/
theorem scalar_promotion_counterexample :
    (schema "2024" 4).find? (fun f => f.name == "macro") =
      some ⟨"macro", .tList, true, .vList []⟩ ∧
    (mkSettings "2024" 4 [("macro", .vStr "FOO")]).toOption.map (fun es => getV es "macro") =
      some (.vStr "FOO") ∧
    (Value.vStr "FOO") ≠ (Value.vList [.sStr "FOO"]) := by
  refine ⟨by decide, by decide, by decide⟩

/-- C8 (counterexample): integer coercion failure in the metadata-text
loader raises Python's own `int()` error, which names the bad value but
not the offending key. -/
theorem int_coercion_message_counterexample :
    load_markdown_settings "2024" 4 [("max_frontpage_items", .vList [.sStr "abc"])] =
      .error (.valueError "invalid literal for int() with base 10: 'abc'") ∧
    strContains "invalid literal for int() with base 10: 'abc'" "max_frontpage_items" = false ∧
    strContains "invalid literal for int() with base 10: 'abc'" "abc" = true := by
  refine ⟨by decide, by decide, by decide⟩

theorem entryUpdate_name (e : Entry) (v : Value) : ({ e with value := v } : Entry).name = e.name := rfl

theorem coerceEntry_name (e : Entry) : (coerceEntry e).name = e.name := by
  unfold coerceEntry
  split
  · rfl
  split
  · cases e.value <;> rfl
  · rfl

theorem coerceEntry_ftype (e : Entry) : (coerceEntry e).ftype = e.ftype := by
  unfold coerceEntry
  split
  · rfl
  split
  · cases e.value <;> rfl
  · rfl

theorem lookupV_updateV_ne {n m : String} (es : List Entry) (v : Value) (h : n ≠ m) :
    lookupV (updateV es m v) n = lookupV es n := by
  induction es with
  | nil => rfl
  | cons e t ih =>
    simp only [updateV, lookupV]
    cases hm : e.name == m with
    | false => simp only [Bool.false_eq_true, if_false, lookupV, ih]
    | true =>
      have hn : (e.name == n) = false := by
        simp only [beq_eq_false_iff_ne, ne_eq]
        intro c
        exact h (c ▸ (beq_iff_eq.mp hm))
      simp only [if_true, lookupV, entryUpdate_name, hn, Bool.false_eq_true, if_false, ih]

theorem lookupV_updateV_self (es : List Entry) (m : String) (v : Value) :
    lookupV (updateV es m v) m = (lookupV es m).map (fun _ => v) := by
  induction es with
  | nil => rfl
  | cons e t ih =>
    simp only [updateV, lookupV]
    cases hm : e.name == m with
    | false => simp only [Bool.false_eq_true, if_false, lookupV, entryUpdate_name, hm, ih]
    | true => simp [entryUpdate_name, hm]

theorem getV_updateV_ne {n m : String} (es : List Entry) (v : Value) (h : n ≠ m) :
    getV (updateV es m v) n = getV es n := by
  simp [getV, lookupV_updateV_ne es v h]

theorem lookupV_map_pres (g : Entry → Entry) (hg : ∀ e, (g e).name = e.name)
    (es : List Entry) (n : String) :
    lookupV (es.map g) n = (es.find? (fun e => e.name == n)).map (fun e => (g e).value) := by
  induction es with
  | nil => rfl
  | cons e t ih =>
    simp only [List.map_cons, lookupV, hg, List.find?_cons]
    cases he : e.name == n with
    | true => simp
    | false => simp only [Bool.false_eq_true, if_false, ih]

theorem mapM_ok_forall2 {α β : Type} {f : α → Except PyError β} :
    ∀ {l : List α} {l' : List β}, l.mapM f = .ok l' →
      List.Forall₂ (fun a b => f a = .ok b) l l' := by
  intro l
  induction l with
  | nil =>
    intro l' h
    simp only [List.mapM_nil, pure, Except.pure] at h
    cases h
    exact .nil
  | cons a t ih =>
    intro l' h
    rw [List.mapM_cons] at h
    cases hfa : f a with
    | error e => rw [hfa] at h; simp [Bind.bind, Except.bind] at h
    | ok b =>
      rw [hfa] at h
      simp only [Bind.bind, Except.bind] at h
      cases hft : t.mapM f with
      | error e => rw [hft] at h; simp [Except.bind] at h
      | ok bs =>
        rw [hft] at h
        simp only [Except.bind, pure, Except.pure] at h
        cases h
        exact .cons hfa (ih hft)

theorem forall2_mapM_ok {α β : Type} {f : α → Except PyError β}
    {l : List α} {l' : List β} (h : List.Forall₂ (fun a b => f a = .ok b) l l') :
    l.mapM f = .ok l' := by
  induction h with
  | nil => rfl
  | cons hab _ ih =>
    rw [List.mapM_cons]
    simp only [hab, ih, Bind.bind, Except.bind, pure, Except.pure]

theorem updateDisplay_ok_elim {es es' : List Entry} (h : updateDisplay es = .ok es') :
    ∃ l, es' = updateV es "display" (.vList l) := by
  simp only [updateDisplay, Bind.bind] at h
  cases h1 : pyIter (getV es "display") with
  | error e => rw [h1] at h; simp [Except.bind] at h
  | ok items =>
    rw [h1] at h
    simp only [Except.bind] at h
    cases h2 : items.mapM pyLower with
    | error e => rw [h2] at h; simp [Except.bind] at h
    | ok lowered =>
      rw [h2] at h
      simp only [Except.bind] at h
      cases h
      exact ⟨lowered, rfl⟩

theorem updateExtensions_ok_elim {es es' : List Entry} (h : updateExtensions es = .ok es') :
    ∃ l, es' = updateV es "extensions" (.vList l) := by
  simp only [updateExtensions, Bind.bind] at h
  cases h1 : pyIter (getV es "extensions") with
  | error e => rw [h1] at h; simp [Except.bind] at h
  | ok exts =>
    rw [h1] at h
    simp only [Except.bind] at h
    cases h2 : pyIter (getV es "fpp_extensions") with
    | error e => rw [h2] at h; simp [Except.bind] at h
    | ok fpp =>
      rw [h2] at h
      simp only [Except.bind] at h
      cases h
      exact ⟨pySetUnion exts fpp, rfl⟩

theorem postInit_ok_elim {es0 es : List Entry} (h : postInit es0 = .ok es) :
    ∃ es3,
      updateDisplay ((updateV es0 "relative"
        (.vBool (getV es0 "project_url" == Value.vStr ""))).map coerceEntry) = .ok es3 ∧
      updateExtensions es3 = .ok es ∧
      checkDocmarkPairs es docmarkPairs = .ok () := by
  simp only [postInit, Bind.bind] at h
  cases h1 : updateDisplay ((updateV es0 "relative"
      (.vBool (getV es0 "project_url" == Value.vStr ""))).map coerceEntry) with
  | error e => rw [h1] at h; simp [Except.bind] at h
  | ok es3 =>
    rw [h1] at h
    simp only [Except.bind] at h
    cases h2 : updateExtensions es3 with
    | error e => rw [h2] at h; simp [Except.bind] at h
    | ok es4 =>
      rw [h2] at h
      simp only [Except.bind] at h
      cases h3 : checkDocmarkPairs es4 docmarkPairs with
      | error e => rw [h3] at h; simp [Except.bind] at h
      | ok u =>
        rw [h3] at h
        simp only [Except.bind] at h
        cases h
        cases u
        exact ⟨es3, rfl, h2, h3⟩

theorem mkSettings_ok_elim {yearD : String} {cpus : Int} {raw : List (String × Value)}
    {es : List Entry} (h : mkSettings yearD cpus raw = .ok es) :
    raw.find? (fun kv => !((schema yearD cpus).any (fun f => f.finit && f.name == kv.1))) = none ∧
    postInit ((schema yearD cpus).map (assignEntry raw)) = .ok es := by
  simp only [mkSettings] at h
  cases hf : raw.find? (fun kv => !((schema yearD cpus).any (fun f => f.finit && f.name == kv.1))) with
  | some kv => rw [hf] at h; simp at h
  | none => rw [hf] at h; exact ⟨rfl, h⟩

theorem lookupV_eq_find? (es : List Entry) (n : String) :
    lookupV es n = (es.find? (fun e => e.name == n)).map Entry.value := by
  induction es with
  | nil => rfl
  | cons e t ih =>
    simp only [lookupV, List.find?_cons]
    cases he : e.name == n with
    | true => simp
    | false => simp only [Bool.false_eq_true, if_false, ih]

theorem find?_name_updateV_ne {n m : String} (es : List Entry) (v : Value) (h : n ≠ m) :
    (updateV es m v).find? (fun e => e.name == n) = es.find? (fun e => e.name == n) := by
  induction es with
  | nil => rfl
  | cons e t ih =>
    simp only [updateV, List.find?_cons]
    cases hm : e.name == m with
    | false => simp only [Bool.false_eq_true, if_false, List.find?_cons, ih]
    | true =>
      have hn : (e.name == n) = false := by
        simp only [beq_eq_false_iff_ne, ne_eq]
        intro c
        exact h (c ▸ (beq_iff_eq.mp hm))
      simp only [if_true, entryUpdate_name, hn, Bool.false_eq_true, if_false, ih]

theorem find?_name_updateV_self (es : List Entry) (m : String) (v : Value) :
    (updateV es m v).find? (fun e => e.name == m) =
      (es.find? (fun e => e.name == m)).map (fun e => { e with value := v }) := by
  induction es with
  | nil => rfl
  | cons e t ih =>
    simp only [updateV, List.find?_cons]
    cases hm : e.name == m with
    | false => simp only [Bool.false_eq_true, if_false, entryUpdate_name, hm, ih]
    | true => simp only [if_true, entryUpdate_name, hm, Option.map_some']

theorem find?_name_map {α : Type} (g : α → Entry) (nm : α → String)
    (hg : ∀ a, (g a).name = nm a) (l : List α) (n : String) :
    (l.map g).find? (fun e => e.name == n) = (l.find? (fun a => nm a == n)).map g := by
  induction l with
  | nil => rfl
  | cons a t ih =>
    simp only [List.map_cons, List.find?_cons, hg]
    cases ha : nm a == n with
    | true => simp
    | false => simp only [Bool.false_eq_true, if_false, ih]

theorem find?_name_of_mem_nodup {l : List Field0} {f : Field0} (hf : f ∈ l)
    (hnd : (l.map Field0.name).Nodup) : l.find? (fun x => x.name == f.name) = some f := by
  induction l with
  | nil => cases hf
  | cons a t ih =>
    rw [List.map_cons, List.nodup_cons] at hnd
    rcases List.mem_cons.mp hf with rfl | hmem
    · simp [List.find?_cons]
    · have hne : (a.name == f.name) = false := by
        simp only [beq_eq_false_iff_ne, ne_eq]
        intro c
        exact hnd.1 (c ▸ List.mem_map_of_mem Field0.name hmem)
      simp only [List.find?_cons, hne, Bool.false_eq_true, if_false]
      exact ih hmem hnd.2

theorem schema_names_nodup (yearD : String) (cpus : Int) :
    ((schema yearD cpus).map Field0.name).Nodup := by
  rw [show (schema yearD cpus).map Field0.name = (schema "" 0).map Field0.name from rfl]
  decide

theorem coerceEntry_not_origin {e : Entry} (h : originIsList e.ftype = false) :
    coerceEntry e = e := by
  unfold coerceEntry
  split
  · rfl
  · simp [h]

theorem schema_defaults_coerce_fixed (yearD : String) (cpus : Int) :
    ∀ f ∈ schema yearD cpus,
      coerceEntry ⟨f.name, f.ftype, f.default⟩ = ⟨f.name, f.ftype, f.default⟩ := by
  intro f hf
  fin_cases hf <;> rfl

theorem updateDisplay_ok_parts {es es' : List Entry} (h : updateDisplay es = .ok es') :
    ∃ items l, pyIter (getV es "display") = .ok items ∧ items.mapM pyLower = .ok l ∧
      es' = updateV es "display" (.vList l) := by
  simp only [updateDisplay, Bind.bind] at h
  cases h1 : pyIter (getV es "display") with
  | error e => rw [h1] at h; simp [Except.bind] at h
  | ok items =>
    rw [h1] at h
    simp only [Except.bind] at h
    cases h2 : items.mapM pyLower with
    | error e => rw [h2] at h; simp [Except.bind] at h
    | ok lowered =>
      rw [h2] at h
      simp only [Except.bind] at h
      cases h
      exact ⟨items, lowered, rfl, h2, rfl⟩

theorem updateExtensions_ok_parts {es es' : List Entry} (h : updateExtensions es = .ok es') :
    ∃ a b, pyIter (getV es "extensions") = .ok a ∧ pyIter (getV es "fpp_extensions") = .ok b ∧
      es' = updateV es "extensions" (.vList (pySetUnion a b)) := by
  simp only [updateExtensions, Bind.bind] at h
  cases h1 : pyIter (getV es "extensions") with
  | error e => rw [h1] at h; simp [Except.bind] at h
  | ok exts =>
    rw [h1] at h
    simp only [Except.bind] at h
    cases h2 : pyIter (getV es "fpp_extensions") with
    | error e => rw [h2] at h; simp [Except.bind] at h
    | ok fpp =>
      rw [h2] at h
      simp only [Except.bind] at h
      cases h
      exact ⟨exts, fpp, rfl, rfl, rfl⟩

theorem checkDocmarkPairs_ok_iff (es : List Entry) (pairs : List (String × String)) :
    checkDocmarkPairs es pairs = .ok () ↔
      ∀ p ∈ pairs, (getV es p.1 == getV es p.2 && getV es p.2 != Value.vStr "") = false := by
  induction pairs with
  | nil => simp [checkDocmarkPairs]
  | cons p rest ih =>
    cases p with
    | mk f s =>
      simp only [checkDocmarkPairs]
      cases hc : (getV es f == getV es s && getV es s != Value.vStr "") with
      | true =>
        simp only [if_true, List.mem_cons]
        constructor
        · intro hcon; cases hcon
        · intro hall
          have := hall (f, s) (Or.inl rfl)
          rw [hc] at this
          cases this
      | false =>
        simp only [Bool.false_eq_true, if_false, ih, List.mem_cons]
        constructor
        · intro hall q hq
          rcases hq with rfl | hq
          · exact hc
          · exact hall q hq
        · intro hall q hq
          exact hall q (Or.inr hq)

theorem checkDocmarkPairs_collision (es : List Entry) (pairs : List (String × String))
    (h : ∃ p ∈ pairs, (getV es p.1 == getV es p.2 && getV es p.2 != Value.vStr "") = true) :
    ∃ p ∈ pairs, (getV es p.1 == getV es p.2 && getV es p.2 != Value.vStr "") = true ∧
      checkDocmarkPairs es pairs = .error (.valueError (p.1 ++ " ('" ++ (getV es p.1).pyStr ++
        "') and " ++ p.2 ++ " ('" ++ (getV es p.2).pyStr ++ "') are the same")) := by
  induction pairs with
  | nil => rcases h with ⟨p, hp, _⟩; cases hp
  | cons q rest ih =>
    cases q with
    | mk f s =>
      cases hc : (getV es f == getV es s && getV es s != Value.vStr "") with
      | true =>
        refine ⟨(f, s), List.mem_cons_self _ _, hc, ?_⟩
        simp only [checkDocmarkPairs, hc, if_true]
      | false =>
        have h' : ∃ p ∈ rest, (getV es p.1 == getV es p.2 && getV es p.2 != Value.vStr "") = true := by
          rcases h with ⟨p, hp, hcol⟩
          rcases List.mem_cons.mp hp with rfl | hp'
          · rw [hc] at hcol; cases hcol
          · exact ⟨p, hp', hcol⟩
        rcases ih h' with ⟨p, hp, hcol, heq⟩
        refine ⟨p, List.mem_cons_of_mem _ hp, hcol, ?_⟩
        simp only [checkDocmarkPairs, hc, Bool.false_eq_true, if_false, heq]

theorem lookupV_mkSettings {yearD : String} {cpus : Int} {raw : List (String × Value)}
    {es : List Entry} (h : mkSettings yearD cpus raw = .ok es)
    {f : Field0} (hf : f ∈ schema yearD cpus)
    (hd : f.name ≠ "display") (hx : f.name ≠ "extensions") (hr : f.name ≠ "relative") :
    lookupV es f.name = some (coerceEntry (assignEntry raw f)).value := by
  obtain ⟨-, hpost⟩ := mkSettings_ok_elim h
  obtain ⟨es3, hdisp, hext, -⟩ := postInit_ok_elim hpost
  obtain ⟨l1, rfl⟩ := updateDisplay_ok_elim hdisp
  obtain ⟨l2, rfl⟩ := updateExtensions_ok_elim hext
  rw [lookupV_updateV_ne _ _ hx, lookupV_updateV_ne _ _ hd, lookupV_eq_find?,
    find?_name_map coerceEntry Entry.name coerceEntry_name,
    find?_name_updateV_ne _ _ hr,
    find?_name_map (assignEntry raw) Field0.name (fun _ => rfl),
    find?_name_of_mem_nodup hf (schema_names_nodup yearD cpus)]
  rfl

theorem lookupV_mkSettings_relative {yearD : String} {cpus : Int}
    {raw : List (String × Value)} {es : List Entry} (h : mkSettings yearD cpus raw = .ok es) :
    lookupV es "relative" =
      some (.vBool ((rawLookup raw "project_url").getD (Value.vStr "") == Value.vStr "")) := by
  obtain ⟨-, hpost⟩ := mkSettings_ok_elim h
  obtain ⟨es3, hdisp, hext, -⟩ := postInit_ok_elim hpost
  obtain ⟨l1, rfl⟩ := updateDisplay_ok_elim hdisp
  obtain ⟨l2, rfl⟩ := updateExtensions_ok_elim hext
  have hgv : getV ((schema yearD cpus).map (assignEntry raw)) "project_url" =
      (rawLookup raw "project_url").getD (Value.vStr "") := by
    have : (schema yearD cpus).find? (fun a => a.name == "project_url") =
        some ⟨"project_url", .tStr, true, .vStr ""⟩ := rfl
    rw [getV, lookupV_eq_find?,
      find?_name_map (assignEntry raw) Field0.name (fun _ => rfl), this]
    rfl
  rw [lookupV_updateV_ne _ _ (by decide), lookupV_updateV_ne _ _ (by decide),
    lookupV_eq_find?, find?_name_map coerceEntry Entry.name coerceEntry_name,
    find?_name_updateV_self, hgv]
  have : ((schema yearD cpus).map (assignEntry raw)).find? (fun e => e.name == "relative") =
      some (assignEntry raw ⟨"relative", .tBool, false, .vBool false⟩) := by
    rw [find?_name_map (assignEntry raw) Field0.name (fun _ => rfl)]
    rfl
  rw [this]
  rfl

theorem coercePair_fst {yearD : String} {cpus : Int} {kv kv' : String × Value}
    (h : coercePair yearD cpus kv = .ok kv') : kv'.1 = kv.1 := by
  unfold coercePair at h
  cases hf : (schema yearD cpus).find? (fun f => f.name == kv.1) with
  | none => rw [hf] at h; cases h
  | some f =>
    rw [hf] at h
    simp only [Bind.bind] at h
    cases hc : coerceValue kv.1 f.ftype kv.2 with
    | error e => rw [hc] at h; simp [Except.bind] at h
    | ok v =>
      rw [hc] at h
      simp only [Except.bind] at h
      cases h
      rfl

theorem rawLookup_none_preserved {raw raw' : List (String × Value)} {n : String}
    (h2 : List.Forall₂ (fun kv kv' : String × Value => kv'.1 = kv.1) raw raw')
    (h1 : rawLookup raw n = none) : rawLookup raw' n = none := by
  induction h2 with
  | nil => rfl
  | cons hab _ ih =>
    simp only [rawLookup] at h1 ⊢
    rw [hab]
    cases hk : (_ : String × Value).1 == n
    case cons.false =>
      rw [hk] at h1
      simp only [Bool.false_eq_true, if_false] at h1 ⊢
      exact ih h1
    case cons.true =>
      rw [hk] at h1
      simp at h1

theorem load_markdown_ok_elim {yearD : String} {cpus : Int}
    {raw : List (String × Value)} {es : List Entry}
    (h : load_markdown_settings yearD cpus raw = .ok es) :
    ∃ raw', raw.mapM (coercePair yearD cpus) = .ok raw' ∧
      mkSettings yearD cpus raw' = .ok es := by
  simp only [load_markdown_settings, Bind.bind] at h
  cases h1 : raw.mapM (coercePair yearD cpus) with
  | error e => rw [h1] at h; simp [Except.bind] at h
  | ok raw' =>
    rw [h1] at h
    simp only [Except.bind] at h
    exact ⟨raw', rfl, h⟩

theorem load_toml_ok_elim {yearD : String} {cpus : Int}
    {raw : List (String × Value)} {es : List Entry}
    (h : load_toml_settings yearD cpus (some raw) = .ok (some es)) :
    mkSettings yearD cpus raw = .ok es := by
  simp only [load_toml_settings, Bind.bind] at h
  cases h1 : mkSettings yearD cpus raw with
  | error e => rw [h1] at h; simp [Except.bind] at h
  | ok es' =>
    rw [h1] at h
    simp only [Except.bind] at h
    cases h
    rfl

/-- C1 (corrected): a schema key absent from raw input takes exactly its
declared default in the constructed settings — via direct construction,
the toml loader, or the markdown loader — for every key except
`extensions`, whose declared default is replaced by the duplicate-free
union with `fpp_extensions` even when absent, and the derived
`init=False` flag `relative`, which has no input and holds the derived
value. -/
theorem defaults_for_absent_keys (yearD : String) (cpus : Int)
    (raw : List (String × Value)) (es : List Entry) (f : Field0)
    (hf : f ∈ schema yearD cpus) (habs : rawLookup raw f.name = none)
    (hx : f.name ≠ "extensions") (hr : f.name ≠ "relative") :
    (mkSettings yearD cpus raw = .ok es → lookupV es f.name = some f.default) ∧
    (load_toml_settings yearD cpus (some raw) = .ok (some es) →
      lookupV es f.name = some f.default) ∧
    (load_markdown_settings yearD cpus raw = .ok es →
      lookupV es f.name = some f.default) := by
  have core : ∀ raw' : List (String × Value), rawLookup raw' f.name = none →
      mkSettings yearD cpus raw' = .ok es → lookupV es f.name = some f.default := by
    intro raw' habs' h
    by_cases hd : f.name = "display"
    · -- the display field: absent input keeps the default, which the
      -- lower-casing pass maps to itself
      have hfeq : f = ⟨"display", .tListStr, true, .vList [.sStr "public", .sStr "protected"]⟩ := by
        have h1 := find?_name_of_mem_nodup hf (schema_names_nodup yearD cpus)
        rw [hd] at h1
        have h2 : (schema yearD cpus).find? (fun x => x.name == "display") =
            some ⟨"display", .tListStr, true, .vList [.sStr "public", .sStr "protected"]⟩ := rfl
        rw [h2] at h1
        exact (Option.some.inj h1).symm
      obtain ⟨-, hpost⟩ := mkSettings_ok_elim h
      obtain ⟨es3, hdisp, hext, -⟩ := postInit_ok_elim hpost
      obtain ⟨items, l1, hiter, hmap, rfl⟩ := updateDisplay_ok_parts hdisp
      obtain ⟨l2, rfl⟩ := updateExtensions_ok_elim hext
      -- the display value before the display pass is the declared default
      have hlook : lookupV ((updateV ((schema yearD cpus).map (assignEntry raw'))
          "relative" (.vBool (getV ((schema yearD cpus).map (assignEntry raw'))
            "project_url" == Value.vStr ""))).map coerceEntry) "display" =
          some (.vList [.sStr "public", .sStr "protected"]) := by
        rw [lookupV_eq_find?, find?_name_map coerceEntry Entry.name coerceEntry_name,
          find?_name_updateV_ne _ _ (by decide),
          find?_name_map (assignEntry raw') Field0.name (fun _ => rfl)]
        have h2 : (schema yearD cpus).find? (fun x => x.name == "display") =
            some ⟨"display", .tListStr, true, .vList [.sStr "public", .sStr "protected"]⟩ := rfl
        rw [h2]
        simp only [Option.map_some']
        rw [show assignEntry raw' ⟨"display", .tListStr, true,
            .vList [.sStr "public", .sStr "protected"]⟩ =
          ⟨"display", .tListStr, .vList [.sStr "public", .sStr "protected"]⟩ by
            simp [assignEntry, hd ▸ habs']]
        rfl
      rw [hd] at *
      rw [lookupV_updateV_ne _ _ (by decide), lookupV_updateV_self]
      rw [getV, hlook, Option.getD_some] at hiter
      have hitems : items = [Scalar.sStr "public", Scalar.sStr "protected"] := by
        have : pyIter (Value.vList [Scalar.sStr "public", Scalar.sStr "protected"]) =
            .ok [Scalar.sStr "public", Scalar.sStr "protected"] := rfl
        rw [this] at hiter
        exact (Except.ok.inj hiter).symm
      rw [hitems] at hmap
      have : ([Scalar.sStr "public", Scalar.sStr "protected"]).mapM pyLower =
          .ok [Scalar.sStr "public", Scalar.sStr "protected"] := rfl
      rw [this] at hmap
      have hl1 : l1 = [Scalar.sStr "public", Scalar.sStr "protected"] :=
        (Except.ok.inj hmap).symm
      rw [hlook, hl1, hfeq]
      rfl
    · rw [lookupV_mkSettings h hf hd hx hr]
      have ha : assignEntry raw' f = ⟨f.name, f.ftype, f.default⟩ := by
        simp [assignEntry, habs']
      rw [ha, schema_defaults_coerce_fixed yearD cpus f hf]
  refine ⟨core raw habs, fun h => core raw habs (load_toml_ok_elim h), fun h => ?_⟩
  obtain ⟨raw', hco, hmk⟩ := load_markdown_ok_elim h
  have hpres : List.Forall₂ (fun kv kv' : String × Value => kv'.1 = kv.1) raw raw' := by
    have h2 := mapM_ok_forall2 hco
    exact h2.imp (fun {a b} hab => coercePair_fst hab)
  exact core raw' (rawLookup_none_preserved hpres habs) hmk

/-- Witness for C1 at a concrete input: with only `project` supplied, the
absent key `author` holds its declared default `None`. -/
theorem defaults_for_absent_keys_witness :
    lookupV ((mkSettings "2024" 4 [("project", Value.vStr "X")]).toOption.getD []) "author" =
      some Value.vNone := by
  have h : mkSettings "2024" 4 [("project", Value.vStr "X")] =
      .ok ((mkSettings "2024" 4 [("project", Value.vStr "X")]).toOption.getD []) := by decide
  exact (defaults_for_absent_keys "2024" 4 [("project", Value.vStr "X")] _
    ⟨"author", .tOptStr, true, .vNone⟩ (by decide) (by decide) (by decide) (by decide)).1 h

theorem eq_of_name_mem {yearD : String} {cpus : Int} {f g : Field0}
    (hf : f ∈ schema yearD cpus)
    (hfind : (schema yearD cpus).find? (fun x => x.name == f.name) = some g) : f = g := by
  have h1 := find?_name_of_mem_nodup hf (schema_names_nodup yearD cpus)
  rw [h1] at hfind
  exact Option.some.inj hfind

theorem finit_true_of_ne_relative {yearD : String} {cpus : Int} {f : Field0}
    (hf : f ∈ schema yearD cpus) (h : f.name ≠ "relative") : f.finit = true := by
  have hall : (schema yearD cpus).all (fun x => x.finit || x.name == "relative") = true := by
    rw [show (schema yearD cpus).all (fun x => x.finit || x.name == "relative") =
        (schema "" 0).all (fun x => x.finit || x.name == "relative") from rfl]
    decide
  have hx := List.all_eq_true.mp hall f hf
  rcases Bool.or_eq_true_iff.mp hx with h1 | h2
  · exact h1
  · exact absurd (beq_iff_eq.mp h2) h

theorem listKind_ne_relative {yearD : String} {cpus : Int} {f : Field0}
    (hf : f ∈ schema yearD cpus)
    (hl : originIsList f.ftype = true ∨ f.ftype = .tList) : f.name ≠ "relative" := by
  intro c
  have hfind : (schema yearD cpus).find? (fun x => x.name == f.name) =
      some ⟨"relative", .tBool, false, .vBool false⟩ := by rw [c]; exact rfl
  have heq := eq_of_name_mem hf hfind
  rw [heq] at hl
  rcases hl with h1 | h2
  · cases h1
  · cases h2

theorem tList_ne_display {yearD : String} {cpus : Int} {f : Field0}
    (hf : f ∈ schema yearD cpus) (ht : f.ftype = .tList) : f.name ≠ "display" := by
  intro c
  have hfind : (schema yearD cpus).find? (fun x => x.name == f.name) =
      some ⟨"display", .tListStr, true, .vList [.sStr "public", .sStr "protected"]⟩ := by rw [c]; exact rfl
  have heq := eq_of_name_mem hf hfind
  rw [heq] at ht
  cases ht

theorem tList_ne_extensions {yearD : String} {cpus : Int} {f : Field0}
    (hf : f ∈ schema yearD cpus) (ht : f.ftype = .tList) : f.name ≠ "extensions" := by
  intro c
  have hfind : (schema yearD cpus).find? (fun x => x.name == f.name) =
      some ⟨"extensions", .tListStr, true,
        .vList [.sStr "f90", .sStr "f95", .sStr "f03", .sStr "f08", .sStr "f15"]⟩ := by rw [c]; exact rfl
  have heq := eq_of_name_mem hf hfind
  rw [heq] at ht
  cases ht

theorem lookupV_es2_of_find {yearD : String} {cpus : Int}
    (raw : List (String × Value)) (relv : Value) {n : String} {g : Field0}
    (hfind : (schema yearD cpus).find? (fun x => x.name == n) = some g)
    (hnr : n ≠ "relative") :
    lookupV ((updateV ((schema yearD cpus).map (assignEntry raw)) "relative" relv).map
      coerceEntry) n = some (coerceEntry (assignEntry raw g)).value := by
  rw [lookupV_eq_find?, find?_name_map coerceEntry Entry.name coerceEntry_name,
    find?_name_updateV_ne _ _ hnr,
    find?_name_map (assignEntry raw) Field0.name (fun _ => rfl), hfind]
  rfl

/-- C3 (corrected): scalar promotion for list-typed keys.  The metadata
loader promotes a scalar raw input to `[scalar]` for every list-typed key
(other than `display` and `extensions`, whose stored lists are further
rewritten by lower-casing and by the `fpp_extensions` union).  Direct
construction (used by the toml loader) promotes scalars only for the
parametrized annotations `List[str]`/`List[Path]`; a bare-`list` key keeps
the scalar unchanged, because `get_origin(list)` is `None`.  A list input
is never collapsed to a scalar. -/
theorem scalar_promotion_amended (yearD : String) (cpus : Int) (f : Field0)
    (hf : f ∈ schema yearD cpus) :
    (∀ (s : Scalar) (es : List Entry),
      (originIsList f.ftype = true ∨ f.ftype = .tList) →
      f.name ≠ "display" → f.name ≠ "extensions" →
      load_markdown_settings yearD cpus [(f.name, .atom s)] = .ok es →
      lookupV es f.name = some (.vList [s])) ∧
    (∀ (raw : List (String × Value)) (s : Scalar) (es : List Entry),
      originIsList f.ftype = true →
      f.name ≠ "display" → f.name ≠ "extensions" →
      rawLookup raw f.name = some (.atom s) →
      mkSettings yearD cpus raw = .ok es →
      lookupV es f.name = some (.vList [s])) ∧
    (∀ (raw : List (String × Value)) (s : Scalar) (es : List Entry),
      f.ftype = .tList →
      rawLookup raw f.name = some (.atom s) →
      mkSettings yearD cpus raw = .ok es →
      lookupV es f.name = some (.atom s)) ∧
    (∀ (raw : List (String × Value)) (l : List Scalar) (es : List Entry),
      (originIsList f.ftype = true ∨ f.ftype = .tList) →
      rawLookup raw f.name = some (.vList l) →
      mkSettings yearD cpus raw = .ok es →
      ∃ l', lookupV es f.name = some (.vList l')) := by
  have hassign : ∀ (raw : List (String × Value)) (v : Value),
      f.name ≠ "relative" → rawLookup raw f.name = some v →
      assignEntry raw f = ⟨f.name, f.ftype, v⟩ := by
    intro raw v hnr hlook
    simp [assignEntry, finit_true_of_ne_relative hf hnr, hlook]
  have coreWrap : ∀ (raw : List (String × Value)) (s : Scalar) (es : List Entry),
      originIsList f.ftype = true → f.name ≠ "display" → f.name ≠ "extensions" →
      rawLookup raw f.name = some (.atom s) →
      mkSettings yearD cpus raw = .ok es →
      lookupV es f.name = some (.vList [s]) := by
    intro raw s es horig hd hx hlook h
    have hnr : f.name ≠ "relative" := listKind_ne_relative hf (Or.inl horig)
    rw [lookupV_mkSettings h hf hd hx hnr, hassign raw _ hnr hlook]
    have : coerceEntry ⟨f.name, f.ftype, .atom s⟩ = ⟨f.name, f.ftype, .vList [s]⟩ := by
      unfold coerceEntry
      have hmatch : is_same_type f.ftype (Value.atom s).typeOf = false := by
        cases hft : f.ftype <;> rw [hft] at horig <;> try cases horig
        all_goals cases s <;> rfl
      rw [hmatch]
      simp [horig]
    rw [this]
  have coreKeep : ∀ (raw : List (String × Value)) (s : Scalar) (es : List Entry),
      f.ftype = .tList →
      rawLookup raw f.name = some (.atom s) →
      mkSettings yearD cpus raw = .ok es →
      lookupV es f.name = some (.atom s) := by
    intro raw s es ht hlook h
    have hnr : f.name ≠ "relative" := listKind_ne_relative hf (Or.inr ht)
    rw [lookupV_mkSettings h hf (tList_ne_display hf ht) (tList_ne_extensions hf ht) hnr,
      hassign raw _ hnr hlook]
    have : coerceEntry ⟨f.name, f.ftype, .atom s⟩ = ⟨f.name, f.ftype, .atom s⟩ := by
      unfold coerceEntry
      have hmatch : is_same_type f.ftype (Value.atom s).typeOf = false := by
        rw [ht]; cases s <;> rfl
      rw [hmatch]
      simp [ht, originIsList]
    rw [this]
  refine ⟨?_, coreWrap, coreKeep, ?_⟩
  · intro s es hl hd hx h
    obtain ⟨raw', hco, hmk⟩ := load_markdown_ok_elim h
    rw [List.mapM_cons, List.mapM_nil] at hco
    cases hkv : coercePair yearD cpus (f.name, .atom s) with
    | error e => rw [hkv] at hco; simp [Bind.bind, Except.bind] at hco
    | ok kv' =>
      rw [hkv] at hco
      simp only [Bind.bind, Except.bind, pure, Except.pure] at hco
      cases hco
      unfold coercePair at hkv
      rw [find?_name_of_mem_nodup hf (schema_names_nodup yearD cpus)] at hkv
      simp only [Bind.bind] at hkv
      cases hc : coerceValue f.name f.ftype (.atom s) with
      | error e => rw [hc] at hkv; simp [Except.bind] at hkv
      | ok v =>
        rw [hc] at hkv
        simp only [Except.bind] at hkv
        cases hkv
        rcases hl with horig | ht
        · -- List[str] / List[Path]: loader leaves the scalar, post-init wraps
          have hv : v = .atom s := by
            have : coerceValue f.name f.ftype (.atom s) = .ok (.atom s) := by
              unfold coerceValue
              cases hft : f.ftype <;> rw [hft] at horig <;> try cases horig
              all_goals cases s <;> rfl
            rw [this] at hc
            exact (Except.ok.inj hc).symm
          subst hv
          exact coreWrap [(f.name, .atom s)] s es horig hd hx (by simp [rawLookup]) hmk
        · -- bare list: the loader itself wraps
          have hv : v = .vList [s] := by
            have : coerceValue f.name f.ftype (.atom s) = .ok (.vList [s]) := by
              unfold coerceValue
              rw [ht]
              cases s <;> rfl
            rw [this] at hc
            exact (Except.ok.inj hc).symm
          subst hv
          -- the wrapped list then passes through construction unchanged
          have hnr : f.name ≠ "relative" := listKind_ne_relative hf (Or.inr ht)
          rw [lookupV_mkSettings hmk hf hd hx hnr,
            hassign [(f.name, .vList [s])] (.vList [s]) hnr (by simp [rawLookup])]
          have : coerceEntry ⟨f.name, f.ftype, .vList [s]⟩ = ⟨f.name, f.ftype, .vList [s]⟩ := by
            unfold coerceEntry
            rw [ht]
            rfl
          rw [this]
  · intro raw l es hl hlook h
    have hnr : f.name ≠ "relative" := listKind_ne_relative hf hl
    by_cases hd : f.name = "display"
    · obtain ⟨-, hpost⟩ := mkSettings_ok_elim h
      obtain ⟨es3, hdisp, hext, -⟩ := postInit_ok_elim hpost
      obtain ⟨items, l1, -, -, rfl⟩ := updateDisplay_ok_parts hdisp
      obtain ⟨l2, rfl⟩ := updateExtensions_ok_elim hext
      refine ⟨l1, ?_⟩
      rw [hd, lookupV_updateV_ne _ _ (by decide), lookupV_updateV_self,
        lookupV_es2_of_find raw _ (show (schema yearD cpus).find? (fun x => x.name == "display") =
          some ⟨"display", .tListStr, true, .vList [.sStr "public", .sStr "protected"]⟩ from rfl)
          (by decide)]
      rfl
    · by_cases hx : f.name = "extensions"
      · obtain ⟨-, hpost⟩ := mkSettings_ok_elim h
        obtain ⟨es3, hdisp, hext, -⟩ := postInit_ok_elim hpost
        obtain ⟨l1, rfl⟩ := updateDisplay_ok_elim hdisp
        obtain ⟨a, b, -, -, rfl⟩ := updateExtensions_ok_parts hext
        refine ⟨pySetUnion a b, ?_⟩
        rw [hx, lookupV_updateV_self]
        rw [lookupV_updateV_ne _ _ (by decide),
          lookupV_es2_of_find raw _ (show (schema yearD cpus).find? (fun x =>
            x.name == "extensions") = some ⟨"extensions", .tListStr, true,
            .vList [.sStr "f90", .sStr "f95", .sStr "f03", .sStr "f08", .sStr "f15"]⟩ from rfl)
          (by decide)]
        rfl
      · refine ⟨l, ?_⟩
        rw [lookupV_mkSettings h hf hd hx hnr, hassign raw _ hnr hlook]
        have : coerceEntry ⟨f.name, f.ftype, .vList l⟩ = ⟨f.name, f.ftype, .vList l⟩ := by
          unfold coerceEntry
          rcases hl with horig | ht
          · have hmatch : is_same_type f.ftype (Value.vList l).typeOf = false := by
              cases hft : f.ftype <;> rw [hft] at horig <;> try cases horig
              all_goals rfl
            rw [hmatch]
            simp [horig]
          · rw [ht]
            rfl
        rw [this]

theorem mkSettings_markerRaw (yearD : String) (cpus : Int) (dm dma pdm pdma : String) :
    ∃ es4, mkSettings yearD cpus (markerRaw dm dma pdm pdma) =
      Except.bind (checkDocmarkPairs es4 docmarkPairs) (fun _ => .ok es4) ∧
      getV es4 "docmark" = .vStr dm ∧ getV es4 "predocmark" = .vStr pdm ∧
      getV es4 "docmark_alt" = .vStr dma ∧ getV es4 "predocmark_alt" = .vStr pdma :=
  ⟨_, rfl, rfl, rfl, rfl, rfl⟩

theorem vStr_inj {a b : String} : Value.vStr a = Value.vStr b ↔ a = b := by
  constructor
  · intro h
    exact Scalar.sStr.inj (Value.atom.inj h)
  · intro h
    rw [h]

theorem pyStr_vStr (s : String) : (Value.vStr s).pyStr = s := rfl

/-- C4 (confirmed): two of the four docmark-style markers sharing a
non-empty value make construction raise a `ValueError` naming both
settings and the shared value; the check runs once, after defaults are
applied (a supplied marker colliding with another marker's default also
errors); and construction succeeds when every pair of markers is distinct
or empty. -/
theorem docmark_collision (yearD : String) (cpus : Int) (dm dma pdm pdma : String) :
    (∀ p ∈ docmarkPairs,
      markerVal dm dma pdm pdma p.1 = markerVal dm dma pdm pdma p.2 →
      markerVal dm dma pdm pdma p.2 ≠ "" →
      ∃ a b v, (a, b) ∈ docmarkPairs ∧ markerVal dm dma pdm pdma a = v ∧
        markerVal dm dma pdm pdma b = v ∧ v ≠ "" ∧
        mkSettings yearD cpus (markerRaw dm dma pdm pdma) =
          .error (.valueError (a ++ " ('" ++ v ++ "') and " ++ b ++ " ('" ++ v ++
            "') are the same"))) ∧
    ((∀ p ∈ docmarkPairs,
        markerVal dm dma pdm pdma p.1 = markerVal dm dma pdm pdma p.2 →
        markerVal dm dma pdm pdma p.2 = "") →
      ∃ es, mkSettings yearD cpus (markerRaw dm dma pdm pdma) = .ok es) ∧
    mkSettings yearD cpus [("predocmark", .vStr "!")] =
      .error (.valueError "docmark ('!') and predocmark ('!') are the same") := by
  obtain ⟨es4, heq, hdm, hpdm, hdma, hpdma⟩ := mkSettings_markerRaw yearD cpus dm dma pdm pdma
  have hnames : ∀ q ∈ docmarkPairs,
      (q.1 = "docmark" ∨ q.1 = "predocmark" ∨ q.1 = "docmark_alt" ∨ q.1 = "predocmark_alt") ∧
      (q.2 = "docmark" ∨ q.2 = "predocmark" ∨ q.2 = "docmark_alt" ∨ q.2 = "predocmark_alt") := by
    decide
  have hmark : ∀ n : String,
      (n = "docmark" ∨ n = "predocmark" ∨ n = "docmark_alt" ∨ n = "predocmark_alt") →
      getV es4 n = .vStr (markerVal dm dma pdm pdma n) := by
    intro n hn
    rcases hn with rfl | rfl | rfl | rfl <;> simp [markerVal, hdm, hpdm, hdma, hpdma]
  refine ⟨?_, ?_, rfl⟩
  · intro p hp hcol hne
    have hcb : ∃ q ∈ docmarkPairs,
        (getV es4 q.1 == getV es4 q.2 && getV es4 q.2 != Value.vStr "") = true := by
      refine ⟨p, hp, ?_⟩
      rw [hmark p.1 (hnames p hp).1, hmark p.2 (hnames p hp).2, hcol]
      simp only [Bool.and_eq_true, beq_iff_eq, bne_iff_ne, ne_eq]
      exact ⟨trivial, fun c => hne (vStr_inj.mp c)⟩
    obtain ⟨q, hq, hqcol, herr⟩ := checkDocmarkPairs_collision es4 docmarkPairs hcb
    rw [hmark q.1 (hnames q hq).1, hmark q.2 (hnames q hq).2] at hqcol herr
    simp only [Bool.and_eq_true, beq_iff_eq, bne_iff_ne, ne_eq] at hqcol
    obtain ⟨hveq, hvne⟩ := hqcol
    have hv' : markerVal dm dma pdm pdma q.1 = markerVal dm dma pdm pdma q.2 :=
      vStr_inj.mp hveq
    refine ⟨q.1, q.2, markerVal dm dma pdm pdma q.1, by rw [Prod.mk.eta]; exact hq,
      rfl, hv'.symm, ?_, ?_⟩
    · intro c
      exact hvne (by rw [hv'] at c; rw [c])
    · rw [heq, herr, pyStr_vStr, pyStr_vStr, ← hv']
      rfl
  · intro hsucc
    have hok : checkDocmarkPairs es4 docmarkPairs = .ok () := by
      rw [checkDocmarkPairs_ok_iff]
      intro q hq
      rw [hmark q.1 (hnames q hq).1, hmark q.2 (hnames q hq).2]
      by_cases hv : markerVal dm dma pdm pdma q.1 = markerVal dm dma pdm pdma q.2
      · have hempty := hsucc q hq hv
        rw [hv, hempty]
        simp
      · have : (Value.vStr (markerVal dm dma pdm pdma q.1) ==
            Value.vStr (markerVal dm dma pdm pdma q.2)) = false := by
          simp only [beq_eq_false_iff_ne, ne_eq]
          exact fun c => hv (vStr_inj.mp c)
        rw [this]
        simp
    exact ⟨es4, by rw [heq, hok]; rfl⟩

/-- Witness for C4 at a concrete input: `docmark="!"` colliding with
`predocmark="!"` raises the error naming both keys and the shared mark. -/
theorem docmark_collision_witness :
    ∃ a b v, (a, b) ∈ docmarkPairs ∧ markerVal "!" "*" "!" "|" a = v ∧
      markerVal "!" "*" "!" "|" b = v ∧ v ≠ "" ∧
      mkSettings "2024" 4 (markerRaw "!" "*" "!" "|") =
        .error (.valueError (a ++ " ('" ++ v ++ "') and " ++ b ++ " ('" ++ v ++
          "') are the same")) :=
  (docmark_collision "2024" 4 "!" "*" "!" "|").1 ("docmark", "predocmark")
    (by decide) (by decide) (by decide)

/-- C5 (confirmed): in every successfully constructed settings object the
derived flag `relative` is true exactly when `project_url` is the empty
string, and supplying `relative` as a constructor input is rejected with
an error (it is an `init=False` dataclass field). -/
theorem relative_flag (yearD : String) (cpus : Int) (raw : List (String × Value)) :
    (∀ es, mkSettings yearD cpus raw = .ok es →
      lookupV es "relative" = some (.vBool (getV es "project_url" == Value.vStr ""))) ∧
    (∀ v, ("relative", v) ∈ raw → ∃ e, mkSettings yearD cpus raw = .error e) := by
  constructor
  · intro es h
    have hpu : lookupV es "project_url" =
        some ((rawLookup raw "project_url").getD (Value.vStr "")) := by
      have hfind : (schema yearD cpus).find? (fun x => x.name == "project_url") =
          some ⟨"project_url", .tStr, true, .vStr ""⟩ := rfl
      have hmem : (⟨"project_url", .tStr, true, .vStr ""⟩ : Field0) ∈ schema yearD cpus := by
        exact List.mem_of_find?_eq_some hfind
      have := lookupV_mkSettings h hmem (by decide) (by decide) (by decide)
      rw [this]
      rw [show assignEntry raw ⟨"project_url", .tStr, true, .vStr ""⟩ =
          ⟨"project_url", .tStr, (rawLookup raw "project_url").getD (.vStr "")⟩ from rfl]
      rw [show coerceEntry ⟨"project_url", .tStr, (rawLookup raw "project_url").getD (.vStr "")⟩ =
          ⟨"project_url", .tStr, (rawLookup raw "project_url").getD (.vStr "")⟩ from
        coerceEntry_not_origin rfl]
    rw [lookupV_mkSettings_relative h, getV, hpu]
    rfl
  · intro v hv
    have hp : (!((schema yearD cpus).any (fun f => f.finit && f.name == "relative"))) = true := by
      rw [show ((schema yearD cpus).any (fun f => f.finit && f.name == "relative")) =
          ((schema "" 0).any (fun f => f.finit && f.name == "relative")) from rfl]
      decide
    have : (raw.find? (fun kv =>
        !((schema yearD cpus).any (fun f => f.finit && f.name == kv.1)))).isSome := by
      rw [List.find?_isSome]
      exact ⟨("relative", v), hv, hp⟩
    obtain ⟨kv, hkv⟩ := Option.isSome_iff_exists.mp this
    refine ⟨.typeError ("__init__() got an unexpected keyword argument '" ++ kv.1 ++ "'"), ?_⟩
    simp only [mkSettings, hkv]

theorem updateV_length (es : List Entry) (m : String) (v : Value) :
    (updateV es m v).length = es.length := by
  induction es with
  | nil => rfl
  | cons e t ih => simp only [updateV, List.length_cons, ih]

theorem updateV_get (es : List Entry) (m : String) (v : Value) (i : Nat)
    (hi : i < es.length) (hi' : i < (updateV es m v).length) :
    (updateV es m v).get ⟨i, hi'⟩ =
      (if (es.get ⟨i, hi⟩).name == m then { es.get ⟨i, hi⟩ with value := v }
       else es.get ⟨i, hi⟩) := by
  induction es generalizing i with
  | nil => cases hi
  | cons e t ih =>
    cases i with
    | zero => rfl
    | succ j => exact ih j (Nat.lt_of_succ_lt_succ hi) (by
        simpa [updateV_length] using Nat.lt_of_succ_lt_succ hi')

theorem lookupV_of_get_nodup {es : List Entry} (hnd : (es.map Entry.name).Nodup)
    (i : Nat) (hi : i < es.length) :
    lookupV es (es.get ⟨i, hi⟩).name = some (es.get ⟨i, hi⟩).value := by
  induction es generalizing i with
  | nil => cases hi
  | cons e t ih =>
    rw [List.map_cons, List.nodup_cons] at hnd
    cases i with
    | zero => simp [lookupV]
    | succ j =>
      have hj : j < t.length := Nat.lt_of_succ_lt_succ hi
      have hne : (e.name == (t.get ⟨j, hj⟩).name) = false := by
        simp only [beq_eq_false_iff_ne, ne_eq]
        intro c
        exact hnd.1 (c ▸ List.mem_map_of_mem Entry.name (t.get_mem _ _))
      simp only [List.get_cons_succ, lookupV, hne, Bool.false_eq_true, if_false]
      exact ih hnd.2 j hj

theorem normEntry_name_ftype {d : PyPath} {e e' : Entry} (h : normEntry d e = .ok e') :
    e'.name = e.name ∧ e'.ftype = e.ftype := by
  unfold normEntry at h
  split at h
  · cases h; exact ⟨rfl, rfl⟩
  · split at h
    · simp only [Bind.bind, Except.bind] at h
      split at h
      · cases h
      · split at h
        · cases h
        · cases h; exact ⟨rfl, rfl⟩
    · split at h
      · simp only [Bind.bind, Except.bind] at h
        split at h
        · cases h
        · cases h; exact ⟨rfl, rfl⟩
      · cases h; exact ⟨rfl, rfl⟩

theorem forall2_norm_names {d : PyPath} {l l' : List Entry}
    (h : List.Forall₂ (fun a b => normEntry d a = .ok b) l l') :
    l'.map Entry.name = l.map Entry.name := by
  induction h with
  | nil => rfl
  | cons hab _ ih =>
    simp only [List.map_cons, ih, (normEntry_name_ftype hab).1]

theorem resolveBase_abs {cwd : PyPath} (h : cwd.isAbs = true) (dirArg : Option PyPath) :
    (resolveBase cwd dirArg).isAbs = true := by
  unfold resolveBase
  cases dirArg with
  | none => simp [h]
  | some d =>
    by_cases hd : d.isAbs = true
    · simp [hd]
    · simp only [Option.getD_some, PyPath.join]
      rw [if_neg (by simp [hd])]
      split
      · rename_i hh; exact hh
      · exact h

theorem normalise_path_abs {d : PyPath} (hd : d.isAbs = true) (p : PyPath) :
    (normalise_path d p).isAbs = true := by
  unfold normalise_path PyPath.join
  split
  · rename_i hp; exact hp
  · exact hd

theorem normalise_path_of_abs {p : PyPath} (hp : p.isAbs = true) (d : PyPath) :
    normalise_path d p = p := by
  unfold normalise_path
  rw [if_pos hp]

theorem normalise_paths_ok_elim {moduleDir cwd : PyPath} {dirArg : Option PyPath}
    {es es' : List Entry} (h : normalise_paths moduleDir cwd dirArg es = .ok es') :
    ∃ es2,
      (if getV es "favicon" == Value.vPath FAVICON_PATH then
        updateV es "favicon" (.vPath (moduleDir.join FAVICON_PATH)) else es).mapM
        (normEntry (resolveBase cwd dirArg)) = .ok es2 ∧
      es' = (if getV es2 "md_base_dir" == Value.vNone then
        updateV es2 "md_base_dir" (.vPath (resolveBase cwd dirArg)) else es2) := by
  simp only [normalise_paths, Bind.bind] at h
  cases h1 : (if getV es "favicon" == Value.vPath FAVICON_PATH then
      updateV es "favicon" (.vPath (moduleDir.join FAVICON_PATH)) else es).mapM
      (normEntry (resolveBase cwd dirArg)) with
  | error e => rw [h1] at h; simp [Except.bind] at h
  | ok es2 =>
    rw [h1] at h
    simp only [Except.bind] at h
    cases h
    exact ⟨es2, rfl, rfl⟩

theorem toPath_ok_cases {v : Value} {p : PyPath} (h : toPath v = .ok p) :
    (∃ s, v = .vStr s ∧ p = parsePath s) ∨ v = .vPath p := by
  cases v with
  | vList l => cases h
  | atom s =>
    cases s with
    | sStr t => exact Or.inl ⟨t, rfl, (Except.ok.inj h).symm⟩
    | sPath q => exact Or.inr (by rw [Except.ok.inj h]; rfl)
    | sBool b => cases h
    | sInt n => cases h
    | sNone => cases h

theorem is_same_type_pPosix_false (ft : FieldType) : is_same_type ft .pPosix = false := by
  cases ft <;> rfl

theorem normEntry_matched {d : PyPath} {e : Entry}
    (hm : is_same_type e.ftype e.value.typeOf = true) : normEntry d e = .ok e := by
  unfold normEntry
  rw [if_pos hm]

theorem normEntry_skip {d : PyPath} {e : Entry}
    (h2 : is_same_type e.ftype .pListPathAlias = false)
    (h3 : is_same_type e.ftype .pPathCls = false) :
    normEntry d e = .ok e := by
  unfold normEntry
  split
  · rfl
  · rw [h2, h3]
    simp

theorem normEntry_path (d : PyPath) {e : Entry} {p : PyPath}
    (hty : e.ftype = .tPath ∨ e.ftype = .tOptPath)
    (hp : toPath e.value = .ok p) :
    normEntry d e = .ok { e with value := .vPath (normalise_path d p) } := by
  have hm : is_same_type e.ftype e.value.typeOf = false := by
    rcases toPath_ok_cases hp with ⟨s, hv, -⟩ | hv <;>
      rcases hty with h | h <;> rw [h, hv] <;> rfl
  have halias : is_same_type e.ftype .pListPathAlias = false := by
    rcases hty with h | h <;> rw [h] <;> rfl
  have hpath : is_same_type e.ftype .pPathCls = true := by
    rcases hty with h | h <;> rw [h] <;> rfl
  unfold normEntry
  rw [hm, halias, hpath]
  simp [Bind.bind, Except.bind, hp]

theorem normEntry_listpath (d : PyPath) {e : Entry} {l : List Scalar}
    (hty : e.ftype = .tListPath) (hv : e.value = .vList l) :
    normEntry d e =
      Except.bind (l.mapM (fun v => do
        Except.ok (Scalar.sPath (normalise_path d (← toPath (.atom v))))))
        (fun l' => .ok { e with value := .vList l' }) := by
  have hm : is_same_type e.ftype e.value.typeOf = false := by rw [hty, hv]; rfl
  have halias : is_same_type e.ftype .pListPathAlias = true := by rw [hty]; rfl
  unfold normEntry
  rw [hm, halias]
  simp only [Bool.false_eq_true, if_false, if_true, hv, Bind.bind]
  rw [show pyIter (Value.vList l) = .ok l from rfl]
  simp only [Except.bind]

theorem updateV_map_name (es : List Entry) (m : String) (v : Value) :
    (updateV es m v).map Entry.name = es.map Entry.name := by
  induction es with
  | nil => rfl
  | cons e t ih =>
    simp only [updateV, List.map_cons, ih]
    split <;> rfl

theorem updateV_getElem? (es : List Entry) (m : String) (v : Value) (i : Nat) :
    (updateV es m v)[i]? =
      (es[i]?).map (fun e => if e.name == m then { e with value := v } else e) := by
  induction es generalizing i with
  | nil => simp [updateV]
  | cons e t ih =>
    cases i with
    | zero => simp [updateV]
    | succ j => simpa [updateV] using ih j

theorem forall2_rel_getElem? {α β : Type} {R : α → β → Prop} {l : List α} {l' : List β}
    (h : List.Forall₂ R l l') :
    ∀ (i : Nat) {a : α} {b : β}, l[i]? = some a → l'[i]? = some b → R a b := by
  induction h with
  | nil => intro i a b ha; cases ha
  | cons hab _ ih =>
    intro i a b ha hb
    cases i with
    | zero =>
      rw [List.getElem?_cons_zero] at ha hb
      cases ha
      cases hb
      exact hab
    | succ j =>
      rw [List.getElem?_cons_succ] at ha hb
      exact ih j ha hb

theorem forall2_mem_right {α β : Type} {R : α → β → Prop} {l : List α} {l' : List β}
    (h : List.Forall₂ R l l') {b : β} (hb : b ∈ l') : ∃ a ∈ l, R a b := by
  induction h with
  | nil => cases hb
  | cons hab htail ih =>
    rcases List.mem_cons.mp hb with rfl | hb'
    · exact ⟨_, List.mem_cons_self _ _, hab⟩
    · obtain ⟨a, ha, hr⟩ := ih hb'
      exact ⟨a, List.mem_cons_of_mem _ ha, hr⟩

theorem normInner_ok_iff {d : PyPath} {s q : Scalar} :
    (do Except.ok (Scalar.sPath (normalise_path d (← toPath (.atom s))))) = Except.ok q ↔
      ∃ p, toPath (.atom s) = .ok p ∧ q = Scalar.sPath (normalise_path d p) := by
  cases ht : toPath (.atom s) with
  | error e =>
    simp only [Bind.bind, ht, Except.bind]
    constructor
    · intro hc; cases hc
    · rintro ⟨p, hp, -⟩; cases hp
  | ok p =>
    simp only [Bind.bind, ht, Except.bind]
    constructor
    · intro hc
      exact ⟨p, rfl, (Except.ok.inj hc).symm⟩
    · rintro ⟨p', hp', rfl⟩
      cases hp'
      rfl

/-- C6 (corrected): `normalise_paths` resolves every path-typed and
path-list-typed setting against the base directory (the `directory`
argument, defaulting to the current working directory, made absolute): a
relative path becomes the base-joined path (`./doc` under `/proj` becomes
`/proj/doc`), an already-absolute path is left unchanged, and every
result is absolute — except the `favicon` setting when it still holds its
sentinel default, which is substituted with the bundled favicon path
instead of being resolved against the base directory. -/
theorem normalise_paths_resolves (moduleDir cwd : PyPath) (dirArg : Option PyPath)
    (es es' : List Entry) (hcwd : cwd.isAbs = true)
    (hnd : (es.map Entry.name).Nodup)
    (h : normalise_paths moduleDir cwd dirArg es = .ok es')
    (i : Nat) (hi : i < es.length) :
    (∀ p, ((es.get ⟨i, hi⟩).ftype = .tPath ∨ (es.get ⟨i, hi⟩).ftype = .tOptPath) →
      toPath (es.get ⟨i, hi⟩).value = .ok p →
      ¬((es.get ⟨i, hi⟩).name = "favicon" ∧ (es.get ⟨i, hi⟩).value = .vPath FAVICON_PATH) →
      ∃ e', es'[i]? = some e' ∧
        e'.value = .vPath (normalise_path (resolveBase cwd dirArg) p) ∧
        (normalise_path (resolveBase cwd dirArg) p).isAbs = true ∧
        (p.isAbs = true → normalise_path (resolveBase cwd dirArg) p = p)) ∧
    (∀ l, (es.get ⟨i, hi⟩).ftype = .tListPath → (es.get ⟨i, hi⟩).value = .vList l →
      ∃ e' l', es'[i]? = some e' ∧ e'.value = .vList l' ∧
        List.Forall₂ (fun s q => ∃ p, toPath (.atom s) = .ok p ∧
          q = Scalar.sPath (normalise_path (resolveBase cwd dirArg) p)) l l' ∧
        ∀ q ∈ l', ∃ p', q = Scalar.sPath p' ∧ p'.isAbs = true) := by
  obtain ⟨es2, hmapM, hes'⟩ := normalise_paths_ok_elim h
  have hdabs : (resolveBase cwd dirArg).isAbs = true := resolveBase_abs hcwd dirArg
  have hF2 := mapM_ok_forall2 hmapM
  have hFnames : (if getV es "favicon" == Value.vPath FAVICON_PATH then
      updateV es "favicon" (.vPath (moduleDir.join FAVICON_PATH)) else es).map Entry.name =
      es.map Entry.name := by
    split
    · exact updateV_map_name es _ _
    · rfl
  have hlen2 : es2.length = es.length := by
    have h1 := List.Forall₂.length_eq hF2
    have h2 := congrArg List.length hFnames
    simp only [List.length_map] at h2
    rw [← h1, h2]
  have hnames2 : es2.map Entry.name = es.map Entry.name := by
    rw [forall2_norm_names hF2, hFnames]
  have hnd2 : (es2.map Entry.name).Nodup := by rw [hnames2]; exact hnd
  have hi2 : i < es2.length := by rw [hlen2]; exact hi
  have hes2some : es2[i]? = some (es2.get ⟨i, hi2⟩) := List.getElem?_eq_getElem hi2
  -- the md_base_dir defaulting step never rewrites an entry whose
  -- normalised value is not None
  have hes'_some : ∀ (hv : (es2.get ⟨i, hi2⟩).value ≠ Value.vNone),
      es'[i]? = some (es2.get ⟨i, hi2⟩) := by
    intro hv
    by_cases hmd : (es2.get ⟨i, hi2⟩).name = "md_base_dir"
    · have hlook : lookupV es2 "md_base_dir" = some (es2.get ⟨i, hi2⟩).value := by
        rw [← hmd]
        exact lookupV_of_get_nodup hnd2 i hi2
      have htrig : (getV es2 "md_base_dir" == Value.vNone) = false := by
        rw [getV, hlook]
        simp only [Option.getD_some, beq_eq_false_iff_ne, ne_eq]
        exact hv
      have heq : es' = es2 := by rw [hes', htrig]; simp
      rw [heq]
      exact hes2some
    · rw [hes']
      split
      · rw [updateV_getElem?, hes2some]
        simp only [Option.map_some']
        rw [if_neg (by simp only [beq_iff_eq]; exact hmd)]
      · exact hes2some
  constructor
  · intro p hty hp hnotfav
    have hFsome : (if getV es "favicon" == Value.vPath FAVICON_PATH then
        updateV es "favicon" (.vPath (moduleDir.join FAVICON_PATH)) else es)[i]? =
        some (es.get ⟨i, hi⟩) := by
      by_cases htrig : (getV es "favicon" == Value.vPath FAVICON_PATH) = true
      · have hcond : ¬(es[i].name == "favicon") = true := by
          simp only [beq_iff_eq]
          intro hname
          have hlook : lookupV es "favicon" = some (es.get ⟨i, hi⟩).value := by
            rw [← hname]
            exact lookupV_of_get_nodup hnd i hi
          rw [getV, hlook, Option.getD_some, beq_iff_eq] at htrig
          exact hnotfav ⟨hname, htrig⟩
        rw [if_pos htrig, updateV_getElem?,
          (List.getElem?_eq_getElem hi : es[i]? = some (es.get ⟨i, hi⟩))]
        simp only [Option.map_some']
        rw [if_neg hcond]
        rfl
      · rw [if_neg htrig]
        exact (List.getElem?_eq_getElem hi : es[i]? = some (es.get ⟨i, hi⟩))
    have hpoint := forall2_rel_getElem? hF2 i hFsome hes2some
    rw [normEntry_path (resolveBase cwd dirArg) hty hp] at hpoint
    have hval : (es2.get ⟨i, hi2⟩).value =
        .vPath (normalise_path (resolveBase cwd dirArg) p) := by
      rw [← Except.ok.inj hpoint]
    refine ⟨es2.get ⟨i, hi2⟩, hes'_some (by rw [hval]; intro c; cases c), hval,
      normalise_path_abs hdabs p, fun ha => normalise_path_of_abs ha _⟩
  · intro l hty hv
    have hFsome : (if getV es "favicon" == Value.vPath FAVICON_PATH then
        updateV es "favicon" (.vPath (moduleDir.join FAVICON_PATH)) else es)[i]? =
        some (es.get ⟨i, hi⟩) := by
      by_cases htrig : (getV es "favicon" == Value.vPath FAVICON_PATH) = true
      · have hcond : ¬(es[i].name == "favicon") = true := by
          simp only [beq_iff_eq]
          intro hname
          have hlook : lookupV es "favicon" = some (es.get ⟨i, hi⟩).value := by
            rw [← hname]
            exact lookupV_of_get_nodup hnd i hi
          rw [getV, hlook, Option.getD_some, beq_iff_eq, hv] at htrig
          cases htrig
        rw [if_pos htrig, updateV_getElem?,
          (List.getElem?_eq_getElem hi : es[i]? = some (es.get ⟨i, hi⟩))]
        simp only [Option.map_some']
        rw [if_neg hcond]
        rfl
      · rw [if_neg htrig]
        exact (List.getElem?_eq_getElem hi : es[i]? = some (es.get ⟨i, hi⟩))
    have hpoint := forall2_rel_getElem? hF2 i hFsome hes2some
    rw [normEntry_listpath (resolveBase cwd dirArg) hty hv] at hpoint
    cases hmm : l.mapM (fun v => do
        Except.ok (Scalar.sPath (normalise_path (resolveBase cwd dirArg)
          (← toPath (.atom v))))) with
    | error e => rw [hmm] at hpoint; cases hpoint
    | ok l' =>
      rw [hmm] at hpoint
      simp only [Except.bind] at hpoint
      have hval : (es2.get ⟨i, hi2⟩).value = .vList l' := by
        rw [← Except.ok.inj hpoint]
      have hfa := mapM_ok_forall2 hmm
      have hfa' : List.Forall₂ (fun s q => ∃ p, toPath (.atom s) = .ok p ∧
          q = Scalar.sPath (normalise_path (resolveBase cwd dirArg) p)) l l' :=
        hfa.imp (fun {a b} hab => normInner_ok_iff.mp hab)
      refine ⟨es2.get ⟨i, hi2⟩, l',
        hes'_some (by rw [hval]; intro c; cases c), hval, hfa', ?_⟩
      intro q hq
      obtain ⟨s, -, hrel⟩ := forall2_mem_right hfa' hq
      obtain ⟨p, -, rfl⟩ := hrel
      exact ⟨_, rfl, normalise_path_abs hdabs p⟩

theorem normEntry_abs_path_value {d : PyPath} {e e' : Entry} {p : PyPath}
    (hv : e.value = .vPath p) (hp : p.isAbs = true)
    (h : normEntry d e = .ok e') : e'.value = .vPath p := by
  unfold normEntry at h
  split at h
  · cases h; exact hv
  · split at h
    · rw [hv] at h
      simp only [Bind.bind, Except.bind] at h
      rw [show pyIter (Value.vPath p) = .error (.typeError "object is not iterable") from rfl] at h
      cases h
    · split at h
      · rw [hv] at h
        simp only [Bind.bind, Except.bind] at h
        rw [show toPath (Value.vPath p) = .ok p from rfl] at h
        simp only [Except.bind] at h
        cases h
        rw [normalise_path_of_abs hp]
      · cases h; exact hv

theorem lookup_forall2_norm {d : PyPath} {F es2 : List Entry}
    (hF2 : List.Forall₂ (fun a b => normEntry d a = .ok b) F es2) (n : String) :
    ∀ {v : Value}, lookupV F n = some v →
      ∃ eF e2 : Entry, eF.value = v ∧ normEntry d eF = .ok e2 ∧
        lookupV es2 n = some e2.value := by
  induction hF2 with
  | nil => intro v hv; cases hv
  | cons hab htail ih =>
    intro v hv
    rename_i a b as bs
    have hbname : b.name = a.name := (normEntry_name_ftype hab).1
    simp only [lookupV] at hv ⊢
    rw [hbname]
    cases hn : a.name == n with
    | true =>
      rw [hn] at hv
      simp only [if_true] at hv
      cases hv
      exact ⟨a, b, rfl, hab, by simp⟩
    | false =>
      rw [hn] at hv
      simp only [Bool.false_eq_true, if_false] at hv
      obtain ⟨eF, e2, h1, h2, h3⟩ := ih hv
      exact ⟨eF, e2, h1, h2, by simp only [hn, Bool.false_eq_true, if_false]; exact h3⟩

/-- C7 (confirmed): when `favicon` still equals the sentinel default at
normalisation time, `normalise_paths` substitutes the bundled favicon
path (`Path(__file__).parent / FAVICON_PATH`) — an absolute path — and
never the sentinel resolved against the base directory: whenever the
module directory differs from the base directory, the result differs
from `<base>/<sentinel>`. -/
theorem favicon_default_substitution (moduleDir cwd : PyPath) (dirArg : Option PyPath)
    (es es' : List Entry) (hmd : moduleDir.isAbs = true)
    (hfav : lookupV es "favicon" = some (.vPath FAVICON_PATH))
    (h : normalise_paths moduleDir cwd dirArg es = .ok es') :
    lookupV es' "favicon" = some (.vPath (moduleDir.join FAVICON_PATH)) ∧
    (moduleDir.join FAVICON_PATH).isAbs = true ∧
    (moduleDir ≠ resolveBase cwd dirArg →
      moduleDir.join FAVICON_PATH ≠ (resolveBase cwd dirArg).join FAVICON_PATH) := by
  have hbabs : (moduleDir.join FAVICON_PATH).isAbs = true := by
    rw [show moduleDir.join FAVICON_PATH = ⟨moduleDir.isAbs, moduleDir.parts ++
      FAVICON_PATH.parts⟩ from rfl]
    exact hmd
  obtain ⟨es2, hmapM, hes'⟩ := normalise_paths_ok_elim h
  have htrig : (getV es "favicon" == Value.vPath FAVICON_PATH) = true := by
    rw [getV, hfav, Option.getD_some]
    simp
  rw [htrig, if_pos rfl] at hmapM
  have hFlook : lookupV (updateV es "favicon" (.vPath (moduleDir.join FAVICON_PATH)))
      "favicon" = some (.vPath (moduleDir.join FAVICON_PATH)) := by
    rw [lookupV_updateV_self, hfav]
    rfl
  obtain ⟨eF, e2, hval, hnorm, hlook2⟩ :=
    lookup_forall2_norm (mapM_ok_forall2 hmapM) "favicon" hFlook
  have he2 : e2.value = .vPath (moduleDir.join FAVICON_PATH) :=
    normEntry_abs_path_value hval hbabs hnorm
  have hlook' : lookupV es' "favicon" = some e2.value := by
    rw [hes']
    split
    · rw [lookupV_updateV_ne _ _ (by decide)]
      exact hlook2
    · exact hlook2
  refine ⟨by rw [hlook', he2], hbabs, ?_⟩
  intro hne c
  apply hne
  rw [show moduleDir.join FAVICON_PATH = ⟨moduleDir.isAbs, moduleDir.parts ++
    FAVICON_PATH.parts⟩ from rfl, show (resolveBase cwd dirArg).join FAVICON_PATH =
    ⟨(resolveBase cwd dirArg).isAbs, (resolveBase cwd dirArg).parts ++
    FAVICON_PATH.parts⟩ from rfl] at c
  have h1a := congrArg PyPath.isAbs c
  have h2a := congrArg PyPath.parts c
  have h1 : moduleDir.isAbs = (resolveBase cwd dirArg).isAbs := h1a
  have h2 : moduleDir.parts ++ FAVICON_PATH.parts =
      (resolveBase cwd dirArg).parts ++ FAVICON_PATH.parts := h2a
  have h3 : moduleDir.parts = (resolveBase cwd dirArg).parts :=
    List.append_cancel_right h2
  rw [show moduleDir = (⟨moduleDir.isAbs, moduleDir.parts⟩ : PyPath) from rfl, h1, h3]

theorem eq_tListPath_of_alias {ft : FieldType}
    (h : is_same_type ft .pListPathAlias = true) : ft = .tListPath := by
  cases ft <;> first | rfl | cases h

theorem path_of_pPathCls {ft : FieldType}
    (h : is_same_type ft .pPathCls = true) : ft = .tPath ∨ ft = .tOptPath := by
  cases ft
  case tPath => exact Or.inl rfl
  case tOptPath => exact Or.inr rfl
  all_goals cases h

theorem lookup_forall2_norm_none {d : PyPath} {F es2 : List Entry}
    (hF2 : List.Forall₂ (fun a b => normEntry d a = .ok b) F es2) (n : String)
    (h : lookupV F n = none) : lookupV es2 n = none := by
  induction hF2 with
  | nil => rfl
  | cons hab htail ih =>
    rename_i a b as bs
    simp only [lookupV] at h ⊢
    rw [(normEntry_name_ftype hab).1]
    cases hn : a.name == n with
    | true => rw [hn] at h; simp at h
    | false =>
      rw [hn] at h
      simp only [Bool.false_eq_true, if_false] at h ⊢
      exact ih h

theorem lookupV_of_mem_nodup {es : List Entry} {e : Entry} (he : e ∈ es)
    (hnd : (es.map Entry.name).Nodup) : lookupV es e.name = some e.value := by
  obtain ⟨⟨i, hi⟩, rfl⟩ := List.mem_iff_get.mp he
  exact lookupV_of_get_nodup hnd i hi

theorem updateV_id_of_none {es : List Entry} {m : String} (h : lookupV es m = none)
    (v : Value) : updateV es m v = es := by
  induction es with
  | nil => rfl
  | cons e t ih =>
    simp only [lookupV] at h
    cases hm : e.name == m with
    | true => rw [hm] at h; simp at h
    | false =>
      rw [hm] at h
      simp only [Bool.false_eq_true, if_false] at h
      simp only [updateV, hm, Bool.false_eq_true, if_false, ih h]

theorem updateV_eq_map (es : List Entry) (m : String) (v : Value) :
    updateV es m v = es.map (fun e => if e.name == m then { e with value := v } else e) := by
  induction es with
  | nil => rfl
  | cons e t ih => simp only [updateV, List.map_cons, ih]

theorem normEntry_value_ne_sentinel {d : PyPath} {e e' : Entry} (hd : d.isAbs = true)
    (hne : e.value ≠ Value.vPath FAVICON_PATH) (h : normEntry d e = .ok e') :
    e'.value ≠ Value.vPath FAVICON_PATH := by
  unfold normEntry at h
  split at h
  · cases h; exact hne
  · split at h
    · simp only [Bind.bind, Except.bind] at h
      split at h
      · cases h
      · split at h
        · cases h
        · cases h
          intro c
          cases c
    · split at h
      · simp only [Bind.bind, Except.bind] at h
        split at h
        · cases h
        · rename_i p htop
          cases h
          intro c
          have hpq : normalise_path d p = FAVICON_PATH :=
            Scalar.sPath.inj (Value.atom.inj c)
          have habs := normalise_path_abs hd p
          rw [hpq] at habs
          exact absurd habs (by decide)
      · cases h; exact hne

theorem normEntry_idem {d : PyPath} (hd : d.isAbs = true) {e e' : Entry}
    (h : normEntry d e = .ok e') : normEntry d e' = .ok e' := by
  unfold normEntry at h
  split at h
  · rename_i hm
    cases h
    exact normEntry_matched hm
  · rename_i hm
    split at h
    · rename_i halias
      simp only [Bind.bind, Except.bind] at h
      split at h
      · cases h
      · rename_i items hiter
        split at h
        · cases h
        · rename_i normed hmap
          cases h
          have hmap2 : normed.mapM (fun v => do
              Except.ok (Scalar.sPath (normalise_path d (← toPath (.atom v))))) =
              .ok normed := by
            apply forall2_mapM_ok
            rw [List.forall₂_same]
            intro q hq
            obtain ⟨s, -, hrel⟩ := forall2_mem_right (mapM_ok_forall2 hmap) hq
            obtain ⟨p, -, rfl⟩ := normInner_ok_iff.mp hrel
            rw [normInner_ok_iff]
            exact ⟨normalise_path d p, rfl,
              by rw [normalise_path_of_abs (normalise_path_abs hd p)]⟩
          rw [normEntry_listpath (e := ⟨e.name, e.ftype, .vList normed⟩) d
            (eq_tListPath_of_alias halias) rfl, hmap2]
          rfl
    · split at h
      · rename_i halias hpath
        simp only [Bind.bind, Except.bind] at h
        split at h
        · cases h
        · rename_i p htop
          cases h
          have h1 := normEntry_path
            (e := ⟨e.name, e.ftype, .vPath (normalise_path d p)⟩) d
            (path_of_pPathCls hpath) rfl
          rw [normalise_path_of_abs (normalise_path_abs hd p)] at h1
          exact h1
      · rename_i halias hpath
        cases h
        exact normEntry_skip (by simpa using halias) (by simpa using hpath)

theorem norm_vNone_branch {d : PyPath} {a b : Entry} (h : normEntry d a = .ok b)
    (hv : b.value = Value.vNone) :
    is_same_type b.ftype .pListPathAlias = false ∧
    (is_same_type b.ftype .pPathCls = true → b.ftype = .tOptPath) := by
  unfold normEntry at h
  split at h
  · rename_i hm
    cases h
    rw [hv] at hm
    cases hft : a.ftype <;> rw [hft] at hm <;> first | exact absurd hm (by decide) | decide
  · split at h
    · simp only [Bind.bind, Except.bind] at h
      split at h
      · cases h
      · split at h
        · cases h
        · cases h
          cases hv
    · split at h
      · simp only [Bind.bind, Except.bind] at h
        split at h
        · cases h
        · cases h
          cases hv
      · rename_i halias hpath
        cases h
        exact ⟨by simpa using halias, fun hc => absurd hc (by simpa using hpath)⟩

theorem norm_md_update_idem {d : PyPath} (hd : d.isAbs = true) {a b : Entry}
    (h : normEntry d a = .ok b) (hv : b.value = Value.vNone) :
    normEntry d { b with value := .vPath d } = .ok { b with value := .vPath d } := by
  obtain ⟨h1, h2⟩ := norm_vNone_branch h hv
  by_cases hp : is_same_type b.ftype .pPathCls = true
  · have := h2 hp
    rw [normEntry_path d (Or.inr (show ({ b with value := Value.vPath d } : Entry).ftype =
      .tOptPath from this)) (show toPath (Value.vPath d) = .ok d from rfl)]
    rw [normalise_path_of_abs hd]
  · exact normEntry_skip (by simpa using h1) (by simpa using hp)

theorem mapM_norm_self {d : PyPath} {l : List Entry}
    (h : ∀ e ∈ l, normEntry d e = .ok e) : l.mapM (normEntry d) = .ok l :=
  forall2_mapM_ok (List.forall₂_same.mpr h)

theorem favicon_cond_false {es2 : List Entry}
    (hfav : ∀ v, lookupV es2 "favicon" = some v → v ≠ Value.vPath FAVICON_PATH) :
    (getV es2 "favicon" == Value.vPath FAVICON_PATH) = false := by
  unfold getV
  cases hv : lookupV es2 "favicon" with
  | none => decide
  | some v =>
    simp only [Option.getD_some]
    exact beq_eq_false_iff_ne.mpr (hfav v hv)

theorem favicon_not_sentinel_after {moduleDir cwd : PyPath} {dirArg : Option PyPath}
    {es es2 : List Entry} (hmd : moduleDir.isAbs = true) (hcwd : cwd.isAbs = true)
    (hmap : (if getV es "favicon" == Value.vPath FAVICON_PATH then
        updateV es "favicon" (.vPath (moduleDir.join FAVICON_PATH)) else es).mapM
        (normEntry (resolveBase cwd dirArg)) = .ok es2) :
    ∀ v, lookupV es2 "favicon" = some v → v ≠ Value.vPath FAVICON_PATH := by
  have hD : (resolveBase cwd dirArg).isAbs = true := resolveBase_abs hcwd dirArg
  intro v hv
  cases hc : getV es "favicon" == Value.vPath FAVICON_PATH with
  | true =>
    rw [hc, if_pos rfl] at hmap
    have hF2 := mapM_ok_forall2 hmap
    cases hw : lookupV (updateV es "favicon" (.vPath (moduleDir.join FAVICON_PATH))) "favicon" with
    | none => rw [lookup_forall2_norm_none hF2 _ hw] at hv; cases hv
    | some w =>
      obtain ⟨eF, e2, hval, hne2, hlk2⟩ := lookup_forall2_norm hF2 _ hw
      rw [hv] at hlk2
      cases hlk2
      refine normEntry_value_ne_sentinel hD ?_ hne2
      rw [hval]
      rw [lookupV_updateV_self] at hw
      cases hw0 : lookupV es "favicon" with
      | none => rw [hw0] at hw; cases hw
      | some w0 =>
        rw [hw0, Option.map_some'] at hw
        cases hw
        intro c
        have h3a := congrArg PyPath.isAbs (Scalar.sPath.inj (Value.atom.inj c))
        have h3 : moduleDir.isAbs = FAVICON_PATH.isAbs := h3a
        rw [hmd] at h3
        exact absurd h3.symm (by decide)
  | false =>
    rw [hc] at hmap
    simp only [Bool.false_eq_true, if_false] at hmap
    have hF2 := mapM_ok_forall2 hmap
    cases hw : lookupV es "favicon" with
    | none => rw [lookup_forall2_norm_none hF2 _ hw] at hv; cases hv
    | some w =>
      obtain ⟨eF, e2, hval, hne2, hlk2⟩ := lookup_forall2_norm hF2 _ hw
      rw [hv] at hlk2
      cases hlk2
      refine normEntry_value_ne_sentinel hD ?_ hne2
      rw [hval]
      have hcw : (w == Value.vPath FAVICON_PATH) = false := by
        rw [getV, hw, Option.getD_some] at hc
        exact hc
      exact beq_eq_false_iff_ne.mp hcw

/-- C9 (confirmed): `normalise_paths` is idempotent — running it a second
time on its own output (same module directory, working directory and
directory argument, absolute as in the real program, and distinct field
names as in the dataclass) returns that output unchanged: all paths are
already absolute, the favicon no longer equals the sentinel default, and
`md_base_dir` is no longer `None`. -/
theorem normalise_idempotent (moduleDir cwd : PyPath) (dirArg : Option PyPath)
    (es es' : List Entry) (hmd : moduleDir.isAbs = true) (hcwd : cwd.isAbs = true)
    (hnd : (es.map Entry.name).Nodup)
    (h : normalise_paths moduleDir cwd dirArg es = .ok es') :
    normalise_paths moduleDir cwd dirArg es' = .ok es' := by
  have hD : (resolveBase cwd dirArg).isAbs = true := resolveBase_abs hcwd dirArg
  obtain ⟨es2, hmap, hes'⟩ := normalise_paths_ok_elim h
  have hF2 := mapM_ok_forall2 hmap
  have hFnames : ((if getV es "favicon" == Value.vPath FAVICON_PATH then
      updateV es "favicon" (.vPath (moduleDir.join FAVICON_PATH)) else es).map Entry.name)
      = es.map Entry.name := by
    split
    · exact updateV_map_name es "favicon" _
    · rfl
  have hnd2 : (es2.map Entry.name).Nodup := by
    rw [forall2_norm_names hF2, hFnames]
    exact hnd
  have hself : ∀ e ∈ es2, normEntry (resolveBase cwd dirArg) e = .ok e := by
    intro e he
    obtain ⟨a, -, ha⟩ := forall2_mem_right hF2 he
    exact normEntry_idem hD ha
  have hfav2 := favicon_not_sentinel_after hmd hcwd hmap
  cases hlk : lookupV es2 "md_base_dir" with
  | none =>
    have hes'2 : es' = es2 := by
      rw [hes']
      split
      · exact updateV_id_of_none hlk _
      · rfl
    have hcond1 := favicon_cond_false (hes'2 ▸ hfav2)
    have hmap' := mapM_norm_self (hes'2 ▸ hself)
    have hcond3 : (if getV es' "md_base_dir" == Value.vNone then
        updateV es' "md_base_dir" (.vPath (resolveBase cwd dirArg)) else es') = es' := by
      rw [hes'2, show getV es2 "md_base_dir" = Value.vNone from by rw [getV, hlk]; rfl]
      rw [if_pos (by decide)]
      exact updateV_id_of_none hlk _
    simp only [normalise_paths, Bind.bind, hcond1, Bool.false_eq_true, if_false, hmap',
      Except.bind]
    rw [hcond3]
  | some w =>
    cases hw : w == Value.vNone with
    | true =>
      have hwv : w = Value.vNone := beq_iff_eq.mp hw
      have hes'u : es' = updateV es2 "md_base_dir" (.vPath (resolveBase cwd dirArg)) := by
        rw [hes', if_pos]
        rw [getV, hlk, Option.getD_some, hwv]
        decide
      have hlk' : ∀ n, n ≠ "md_base_dir" → lookupV es' n = lookupV es2 n := by
        intro n hn
        rw [hes'u]
        exact lookupV_updateV_ne es2 _ hn
      have hcond1 : (getV es' "favicon" == Value.vPath FAVICON_PATH) = false := by
        apply favicon_cond_false
        intro v hv
        exact hfav2 v (by rw [← hlk' "favicon" (by decide)]; exact hv)
      have hmap' : es'.mapM (normEntry (resolveBase cwd dirArg)) = .ok es' := by
        apply mapM_norm_self
        intro e he
        rw [hes'u, updateV_eq_map] at he
        obtain ⟨b, hb, rfl⟩ := List.mem_map.mp he
        cases hbn : b.name == "md_base_dir" with
        | false =>
          simp only [hbn, Bool.false_eq_true, if_false]
          exact hself b hb
        | true =>
          simp only [hbn, if_true]
          obtain ⟨a, -, ha⟩ := forall2_mem_right hF2 hb
          have hbv : b.value = Value.vNone := by
            have := lookupV_of_mem_nodup hb hnd2
            rw [beq_iff_eq.mp hbn, hlk, hwv] at this
            exact (Option.some.inj this).symm
          exact norm_md_update_idem hD ha hbv
      have hcond3 : (if getV es' "md_base_dir" == Value.vNone then
          updateV es' "md_base_dir" (.vPath (resolveBase cwd dirArg)) else es') = es' := by
        rw [if_neg]
        rw [getV, hes'u, lookupV_updateV_self, hlk, Option.map_some', Option.getD_some]
        intro c
        exact Scalar.noConfusion (Value.atom.inj (beq_iff_eq.mp c))
      simp only [normalise_paths, Bind.bind, hcond1, Bool.false_eq_true, if_false, hmap',
        Except.bind]
      rw [hcond3]
    | false =>
      have hes'2 : es' = es2 := by
        rw [hes', if_neg]
        rw [getV, hlk, Option.getD_some]
        rw [hw]
        exact Bool.false_ne_true
      have hcond1 := favicon_cond_false (hes'2 ▸ hfav2)
      have hmap' := mapM_norm_self (hes'2 ▸ hself)
      have hcond3 : (if getV es' "md_base_dir" == Value.vNone then
          updateV es' "md_base_dir" (.vPath (resolveBase cwd dirArg)) else es') = es' := by
        rw [if_neg]
        rw [hes'2, getV, hlk, Option.getD_some, hw]
        exact Bool.false_ne_true
      simp only [normalise_paths, Bind.bind, hcond1, Bool.false_eq_true, if_false, hmap',
        Except.bind]
      rw [hcond3]

theorem normalise_idempotent_witness :
    (parsePath "/app").isAbs = true ∧ (parsePath "/proj").isAbs = true ∧
    (([⟨"output_dir", FieldType.tPath, Value.vStr "./doc"⟩] : List Entry).map Entry.name).Nodup ∧
    normalise_paths (parsePath "/app") (parsePath "/proj") none
      [⟨"output_dir", FieldType.tPath, Value.vStr "./doc"⟩]
      = .ok [⟨"output_dir", FieldType.tPath, Value.vPath (parsePath "/proj/doc")⟩] ∧
    normalise_paths (parsePath "/app") (parsePath "/proj") none
      [⟨"output_dir", FieldType.tPath, Value.vPath (parsePath "/proj/doc")⟩]
      = .ok [⟨"output_dir", FieldType.tPath, Value.vPath (parsePath "/proj/doc")⟩] :=
  ⟨by decide, by decide, by decide, by decide,
   normalise_idempotent (parsePath "/app") (parsePath "/proj") none
     [⟨"output_dir", FieldType.tPath, Value.vStr "./doc"⟩]
     [⟨"output_dir", FieldType.tPath, Value.vPath (parsePath "/proj/doc")⟩]
     (by decide) (by decide) (by decide) (by decide)⟩

/-- C6 counterexample: with the module directory `/app` and base directory
`/proj`, a `favicon` field still holding the sentinel default
`Path("favicon.png")` is replaced by the bundled `/app/favicon.png`, not
resolved against the base directory `/proj` — so not every path-valued
setting is made absolute relative to the base directory. -/
theorem base_resolution_counterexample :
    normalise_paths (parsePath "/app") (parsePath "/proj") none
      [⟨"favicon", FieldType.tPath, Value.vPath FAVICON_PATH⟩]
      = .ok [⟨"favicon", FieldType.tPath, Value.vPath (parsePath "/app/favicon.png")⟩] ∧
    parsePath "/app/favicon.png" ≠
      normalise_path (resolveBase (parsePath "/proj") none) FAVICON_PATH := by
  decide

theorem normalise_paths_resolves_witness :
    (parsePath "/proj").isAbs = true ∧
    (([⟨"output_dir", FieldType.tPath, Value.vStr "./doc"⟩] : List Entry).map Entry.name).Nodup ∧
    normalise_paths (parsePath "/app") (parsePath "/proj") none
      [⟨"output_dir", FieldType.tPath, Value.vStr "./doc"⟩]
      = .ok [⟨"output_dir", FieldType.tPath, Value.vPath (parsePath "/proj/doc")⟩] ∧
    ((∀ p, (FieldType.tPath = FieldType.tPath ∨ FieldType.tPath = FieldType.tOptPath) →
        toPath (Value.vStr "./doc") = .ok p →
        ¬(("output_dir" : String) = "favicon" ∧
          Value.vStr "./doc" = Value.vPath FAVICON_PATH) →
        ∃ e', (([⟨"output_dir", FieldType.tPath,
            Value.vPath (parsePath "/proj/doc")⟩] : List Entry))[0]? = some e' ∧
          e'.value = .vPath (normalise_path (resolveBase (parsePath "/proj") none) p) ∧
          (normalise_path (resolveBase (parsePath "/proj") none) p).isAbs = true ∧
          (p.isAbs = true → normalise_path (resolveBase (parsePath "/proj") none) p = p)) ∧
     (∀ l, FieldType.tPath = FieldType.tListPath → Value.vStr "./doc" = .vList l →
        ∃ e' l', (([⟨"output_dir", FieldType.tPath,
            Value.vPath (parsePath "/proj/doc")⟩] : List Entry))[0]? = some e' ∧
          e'.value = .vList l' ∧
          List.Forall₂ (fun s q => ∃ p, toPath (.atom s) = .ok p ∧
            q = Scalar.sPath (normalise_path (resolveBase (parsePath "/proj") none) p)) l l' ∧
          ∀ q ∈ l', ∃ p', q = Scalar.sPath p' ∧ p'.isAbs = true)) :=
  ⟨by decide, by decide, by decide,
   normalise_paths_resolves (parsePath "/app") (parsePath "/proj") none
     [⟨"output_dir", FieldType.tPath, Value.vStr "./doc"⟩]
     [⟨"output_dir", FieldType.tPath, Value.vPath (parsePath "/proj/doc")⟩]
     (by decide) (by decide) (by decide) 0 (by decide)⟩

theorem favicon_default_substitution_witness :
    (parsePath "/app/ford").isAbs = true ∧
    lookupV [⟨"favicon", FieldType.tPath, Value.vPath FAVICON_PATH⟩] "favicon"
      = some (.vPath FAVICON_PATH) ∧
    normalise_paths (parsePath "/app/ford") (parsePath "/proj") none
      [⟨"favicon", FieldType.tPath, Value.vPath FAVICON_PATH⟩]
      = .ok [⟨"favicon", FieldType.tPath,
          Value.vPath ((parsePath "/app/ford").join FAVICON_PATH)⟩] ∧
    (lookupV [⟨"favicon", FieldType.tPath,
        Value.vPath ((parsePath "/app/ford").join FAVICON_PATH)⟩] "favicon"
      = some (.vPath ((parsePath "/app/ford").join FAVICON_PATH)) ∧
     ((parsePath "/app/ford").join FAVICON_PATH).isAbs = true ∧
     (parsePath "/app/ford" ≠ resolveBase (parsePath "/proj") none →
       (parsePath "/app/ford").join FAVICON_PATH ≠
         (resolveBase (parsePath "/proj") none).join FAVICON_PATH)) :=
  ⟨by decide, by decide, by decide,
   favicon_default_substitution (parsePath "/app/ford") (parsePath "/proj") none
     [⟨"favicon", FieldType.tPath, Value.vPath FAVICON_PATH⟩]
     [⟨"favicon", FieldType.tPath, Value.vPath ((parsePath "/app/ford").join FAVICON_PATH)⟩]
     (by decide) (by decide) (by decide)⟩

theorem pyIntParse_error_msg {s : String} {e : PyError} (h : pyIntParse s = .error e) :
    e = .valueError ("invalid literal for int() with base 10: " ++ Scalar.pyRepr (.sStr s)) := by
  simp only [pyIntParse] at h
  split at h
  · cases h
  · exact (Except.error.inj h).symm

/-- C8 (corrected): integer coercion in the metadata-text loader takes the
first element of the raw list and parses it as a base-10 integer (Python
`int`); non-numeric content raises an immediate hard `ValueError`, no
settings object being produced — but the message is Python's own `int()`
error, which names the bad value and not the offending key. -/
theorem int_coercion_amended (yearD : String) (cpus : Int) (f : Field0)
    (hf : f ∈ schema yearD cpus) (hft : f.ftype = .tInt)
    (s : String) (rest : List Scalar) :
    (∀ n, pyIntParse s = .ok n →
      coerceValue f.name .tInt (.vList (.sStr s :: rest)) = .ok (.vInt n)) ∧
    (∀ e, pyIntParse s = .error e →
      e = .valueError ("invalid literal for int() with base 10: " ++
        Scalar.pyRepr (.sStr s)) ∧
      ∀ raw2, load_markdown_settings yearD cpus
        ((f.name, .vList (.sStr s :: rest)) :: raw2) = .error e) := by
  have hcv : coerceValue f.name .tInt (.vList (.sStr s :: rest)) =
      Except.bind (pyIntParse s) (fun n => .ok (.vInt n)) := rfl
  constructor
  · intro n hps
    rw [hcv, hps]
    rfl
  · intro e hps
    refine ⟨pyIntParse_error_msg hps, ?_⟩
    intro raw2
    have hfind : (schema yearD cpus).find? (fun x => x.name == f.name) = some f :=
      find?_name_of_mem_nodup hf (schema_names_nodup yearD cpus)
    have hcp : coercePair yearD cpus (f.name, .vList (.sStr s :: rest)) = .error e := by
      have hstep : coercePair yearD cpus (f.name, .vList (.sStr s :: rest)) =
          Except.bind (coerceValue f.name f.ftype (.vList (.sStr s :: rest)))
            (fun w => .ok (f.name, w)) := by
        unfold coercePair
        rw [hfind]
        rfl
      rw [hstep, hft, hcv, hps]
      rfl
    simp only [load_markdown_settings, List.mapM_cons, Bind.bind, hcp, Except.bind]

theorem int_coercion_witness :
    (⟨"max_frontpage_items", FieldType.tInt, true, Value.vInt 10⟩ : Field0)
        ∈ schema "2024" (4 : Int) ∧
    FieldType.tInt = FieldType.tInt ∧
    ((∀ n, pyIntParse "abc" = .ok n →
      coerceValue "max_frontpage_items" .tInt (.vList [.sStr "abc"]) = .ok (.vInt n)) ∧
     (∀ e, pyIntParse "abc" = .error e →
      e = .valueError ("invalid literal for int() with base 10: " ++
        Scalar.pyRepr (.sStr "abc")) ∧
      ∀ raw2, load_markdown_settings "2024" 4
        (("max_frontpage_items", .vList [.sStr "abc"]) :: raw2) = .error e)) :=
  ⟨by decide, rfl,
   int_coercion_amended "2024" 4 ⟨"max_frontpage_items", FieldType.tInt, true, Value.vInt 10⟩
     (by decide) rfl "abc" []⟩

theorem mapM_error_of_bad {α β : Type} {f : α → Except PyError β} {l : List α} {x : α}
    (hx : x ∈ l) (hbad : ∀ b, f x ≠ .ok b) : ∃ e, l.mapM f = .error e := by
  induction l with
  | nil => cases hx
  | cons a t ih =>
    rw [List.mapM_cons]
    cases hfa : f a with
    | error e => exact ⟨e, by simp only [Bind.bind, Except.bind]⟩
    | ok b =>
      rcases List.mem_cons.mp hx with rfl | hmem
      · exact absurd hfa (hbad b)
      · obtain ⟨e, he⟩ := ih hmem
        exact ⟨e, by simp only [Bind.bind, Except.bind]; rw [he]⟩

/-- C10 (confirmed): a raw input containing a name that is no schema field
is rejected by every ingestion path rather than silently dropped: the
metadata-text loader fails (its type-hint lookup is a `KeyError`, raised
for the unknown key itself when that key comes first), direct construction
fails (`__init__` rejects the unexpected keyword argument), and the toml
loader, which passes its table straight to the constructor, fails the same
way. -/
theorem unknown_key_rejected (yearD : String) (cpus : Int) (raw : List (String × Value))
    (k : String) (v : Value) (hk : (k, v) ∈ raw)
    (hunk : (schema yearD cpus).find? (fun f => f.name == k) = none) :
    (∃ e, load_markdown_settings yearD cpus raw = .error e) ∧
    (∃ e, mkSettings yearD cpus raw = .error e) ∧
    (∃ e, load_toml_settings yearD cpus (some raw) = .error e) ∧
    load_markdown_settings yearD cpus ((k, v) :: raw) = .error (.keyError k) := by
  have hcp : coercePair yearD cpus (k, v) = .error (.keyError k) := by
    unfold coercePair
    rw [hunk]
  have hpk : (!((schema yearD cpus).any (fun f => f.finit && f.name == k))) = true := by
    rw [Bool.not_eq_true']
    rw [List.any_eq_false]
    intro f hf hc
    have hn : (f.name == k) = true := by
      simp only [Bool.and_eq_true] at hc
      exact hc.2
    exact (List.find?_eq_none.mp hunk f hf) hn
  have hmk : ∃ e, mkSettings yearD cpus raw = .error e := by
    have hsome : (raw.find? (fun kv =>
        !((schema yearD cpus).any (fun f => f.finit && f.name == kv.1)))).isSome := by
      rw [List.find?_isSome]
      exact ⟨(k, v), hk, hpk⟩
    obtain ⟨kv, hfind⟩ := Option.isSome_iff_exists.mp hsome
    refine ⟨.typeError ("__init__() got an unexpected keyword argument '" ++ kv.1 ++ "'"), ?_⟩
    simp only [mkSettings]
    rw [hfind]
  refine ⟨?_, hmk, ?_, ?_⟩
  · obtain ⟨e, he⟩ := mapM_error_of_bad (f := coercePair yearD cpus) hk
      (fun b hc => by rw [hcp] at hc; cases hc)
    exact ⟨e, by simp only [load_markdown_settings, Bind.bind, he, Except.bind]⟩
  · obtain ⟨e, he⟩ := hmk
    exact ⟨e, by simp only [load_toml_settings, Bind.bind, he, Except.bind]⟩
  · simp only [load_markdown_settings, List.mapM_cons, Bind.bind, hcp, Except.bind]

theorem unknown_key_rejected_witness :
    (("not_a_field", Value.vStr "x") : String × Value)
        ∈ [(("not_a_field" : String), Value.vStr "x")] ∧
    (schema "2024" (4 : Int)).find? (fun f => f.name == "not_a_field") = none ∧
    ((∃ e, load_markdown_settings "2024" 4 [("not_a_field", Value.vStr "x")] = .error e) ∧
     (∃ e, mkSettings "2024" 4 [("not_a_field", Value.vStr "x")] = .error e) ∧
     (∃ e, load_toml_settings "2024" 4 (some [("not_a_field", Value.vStr "x")]) = .error e) ∧
     load_markdown_settings "2024" 4
       (("not_a_field", Value.vStr "x") :: [("not_a_field", Value.vStr "x")]) =
       .error (.keyError "not_a_field")) :=
  ⟨by decide, by decide,
   unknown_key_rejected "2024" 4 [("not_a_field", Value.vStr "x")] "not_a_field"
     (Value.vStr "x") (by decide) (by decide)⟩

theorem scalar_promotion_witness :
    (⟨"macro", FieldType.tList, true, Value.vList []⟩ : Field0) ∈ schema "2024" (4 : Int) ∧
    ((∀ (s : Scalar) (es : List Entry),
      (originIsList FieldType.tList = true ∨ FieldType.tList = FieldType.tList) →
      ("macro" : String) ≠ "display" → ("macro" : String) ≠ "extensions" →
      load_markdown_settings "2024" 4 [("macro", .atom s)] = .ok es →
      lookupV es "macro" = some (.vList [s])) ∧
     (∀ (raw : List (String × Value)) (s : Scalar) (es : List Entry),
      originIsList FieldType.tList = true →
      ("macro" : String) ≠ "display" → ("macro" : String) ≠ "extensions" →
      rawLookup raw "macro" = some (.atom s) →
      mkSettings "2024" 4 raw = .ok es →
      lookupV es "macro" = some (.vList [s])) ∧
     (∀ (raw : List (String × Value)) (s : Scalar) (es : List Entry),
      FieldType.tList = FieldType.tList →
      rawLookup raw "macro" = some (.atom s) →
      mkSettings "2024" 4 raw = .ok es →
      lookupV es "macro" = some (.atom s)) ∧
     (∀ (raw : List (String × Value)) (l : List Scalar) (es : List Entry),
      (originIsList FieldType.tList = true ∨ FieldType.tList = FieldType.tList) →
      rawLookup raw "macro" = some (.vList l) →
      mkSettings "2024" 4 raw = .ok es →
      ∃ l', lookupV es "macro" = some (.vList l'))) :=
  ⟨by decide,
   scalar_promotion_amended "2024" 4 ⟨"macro", FieldType.tList, true, Value.vList []⟩
     (by decide)⟩
